import Mathlib

/-!
Shallow embedding of `src/strands_hub_mcp/server.py` (strands-hub-mcp).

The server is a thin access layer over a flat key→bytes object store (S3).
We model the store as an association list from keys to stored values, JSON
payloads structurally (a small `Json` AST), and each tool function of
`server.py` as a Lean function over that state.  Functions that can raise
return `Except HubError`; functions that write also return the resulting
store, including on the error paths (the Python code mutates the store
before some failures, which is the subject of claim C10).

Naming: identifiers follow the source where possible.  The configuration
fields `sessions_prefix`, `metrics_prefix`, `prompts_prefix` are renamed
`sessions_pfx`, `metrics_pfx`, `prompts_pfx` (and local variables `prefix`
are named `pfx`) purely for lexical reasons; they model the same fields.
-/

set_option autoImplicit false

namespace StrandsHubMcp

/-- A structural model of JSON values (`json` module payloads).  Numbers are
modeled as integers: the only number the server itself ever writes is the
`created_at` timestamp, whose numeric value no claim inspects. -/
inductive Json where
  | null
  | bool (b : Bool)
  | num (n : Int)
  | str (s : String)
  | arr (items : List Json)
  | obj (fields : List (String × Json))

/-- First binding of a key in a JSON object field list (Python `dict` lookup;
`json.loads` objects have unique keys). -/
def jlookup : List (String × Json) → String → Option Json
  | [], _ => none
  | (k', v) :: rest, k => if k' = k then some v else jlookup rest k

/-- `d.get(k)` on a JSON value: `none` when the value is not an object or the
key is missing. -/
def jget : Json → String → Option Json
  | .obj fields, k => jlookup fields k
  | _, _ => none

/-- Python `d[k] = v` on a field list: replace the first binding in place
(dicts keep the key's position) or append a new binding. -/
def jsetFields : List (String × Json) → String → Json → List (String × Json)
  | [], k, v => [(k, v)]
  | (k', v') :: rest, k, v =>
    if k' = k then (k, v) :: rest else (k', v') :: jsetFields rest k v

/-- `d[k] = v` on a JSON value.  The server only ever assigns into objects
(`normalizeManifest` errors out first on non-objects), so the non-object
branch is never reached on any path modeled here. -/
def jset : Json → String → Json → Json
  | .obj fields, k, v => .obj (jsetFields fields k v)
  | j, _, _ => j

/-- Escape a string for JSON output (quote and backslash; other escapes do
not occur in the payloads any claim touches). -/
def escapeStr (s : String) : String :=
  String.mk (s.data.flatMap fun c =>
    if c = '"' then ['\\', '"'] else if c = '\\' then ['\\', '\\'] else [c])

mutual

/-- Serialize a JSON value (models `json.dumps`; indentation and float
formatting are immaterial to every claim, which only ever compare parsed
structures). -/
def jdump : Json → String
  | .null => "null"
  | .bool b => if b then "true" else "false"
  | .num n => toString n
  | .str s => "\"" ++ escapeStr s ++ "\""
  | .arr items => "[" ++ jdumpArr items ++ "]"
  | .obj fields => "\x7b" ++ jdumpObj fields ++ "\x7d"

/-- Comma-separated serialization of a JSON array body. -/
def jdumpArr : List Json → String
  | [] => ""
  | [j] => jdump j
  | j :: j2 :: rest => jdump j ++ ", " ++ jdumpArr (j2 :: rest)

/-- Comma-separated serialization of a JSON object body. -/
def jdumpObj : List (String × Json) → String
  | [] => ""
  | [(k, v)] => "\"" ++ escapeStr k ++ "\": " ++ jdump v
  | (k, v) :: kv :: rest =>
    "\"" ++ escapeStr k ++ "\": " ++ jdump v ++ ", " ++ jdumpObj (kv :: rest)

end

/-- A stored object's payload.  `vtext` is raw text written via
`put_object` (or by an external writer); `vjson` is a payload written as
`json.dumps(value)` — kept structurally so that reading it back with
`json.loads` is the identity, which is exactly the stdlib round-trip. -/
inductive StoreVal where
  | vtext (s : String)
  | vjson (j : Json)

/-- The flat key→object store (one bucket).  Keys are unique. -/
abbrev Store := List (String × StoreVal)

/-- Store lookup (S3 `get_object` / `head_object` target resolution). -/
def sget : Store → String → Option StoreVal
  | [], _ => none
  | (k', v) :: rest, k => if k' = k then some v else sget rest k

/-- Store write (S3 `put_object`): a full replace of the object at `k`. -/
def sput : Store → String → StoreVal → Store
  | [], k, v => [(k, v)]
  | (k', v') :: rest, k, v =>
    if k' = k then (k, v) :: rest else (k', v') :: sput rest k v

/-- Errors surfaced by the server's tool functions, following the Python
exception actually raised. -/
inductive HubError where
  | configError
  | notFound (key : String)
  | valueError (msg : String)
  | runtimeError (msg : String)
  | pyError (msg : String)

/-- The hub configuration (`HubConfig`).  `sessions_pfx`, `metrics_pfx`,
`prompts_pfx` model the source fields `sessions_prefix` etc. -/
structure HubConfig where
  use_s3 : Bool
  bucket : String
  region : String
  sessions_pfx : String
  metrics_pfx : String
  prompts_pfx : String
  registry_key : String

/-- `_cfg` (src lines 36-40): fail fast unless the S3 backend is enabled. -/
def cfg_gate (cfg : HubConfig) : Except HubError HubConfig :=
  if cfg.use_s3 then .ok cfg else .error .configError

/-- Python `s.startswith(pre)` on code points. -/
def strStartsWith (s pre : String) : Bool :=
  pre.data.isPrefixOf s.data

/-- Python `s[n:]`. -/
def strDrop (s : String) (n : Nat) : String :=
  String.mk (s.data.drop n)

/-- Python `s.rstrip("/")`: drop every trailing slash. -/
def rstripSlash (s : String) : String :=
  String.mk ((s.data.reverse.dropWhile fun c => c = '/').reverse)

/-- Python `s.lstrip("/")`: drop every leading slash. -/
def lstripSlash (s : String) : String :=
  String.mk (s.data.dropWhile fun c => c = '/')

/-- Python `s.split("/")[-1]`: the final `/`-separated segment. -/
def lastSeg (s : String) : String :=
  String.mk ((s.data.reverse.takeWhile fun c => ¬ c = '/').reverse)

/-- `_ensure_trailing_slash` (src 47-48). -/
def ensure_trailing_slash (p : String) : String :=
  if p.data.getLast? = some '/' then p else p ++ "/"

/-- `_sessions_root` (src 51-53). -/
def sessions_root (cfg : HubConfig) : String :=
  ensure_trailing_slash cfg.sessions_pfx

/-- `_s3_get_text` (src 56-59): `get_object` then decode; a missing key is a
`NoSuchKey` client error. -/
def s3_get_text (store : Store) (key : String) : Except HubError String :=
  match sget store key with
  | some (.vtext s) => .ok s
  | some (.vjson j) => .ok (jdump j)
  | none => .error (.notFound key)

/-- `_s3_get_json` (src 62-63): `json.loads` of the stored text.  The stdlib
parser is external to this repository, so it enters as the parameter
`jloads`; a structurally stored JSON payload reads back as itself (the
`loads`∘`dumps` round-trip).  A parse failure is `json.JSONDecodeError`,
a subclass of `ValueError`. -/
def s3_get_json (jloads : String → Option Json) (store : Store) (key : String) :
    Except HubError Json :=
  match sget store key with
  | none => .error (.notFound key)
  | some (.vjson j) => .ok j
  | some (.vtext s) =>
    match jloads s with
    | some j => .ok j
    | none => .error (.valueError ("invalid JSON at " ++ key))

/-- `_s3_put_text` (src 66-73); the content type does not affect any claim
and is not tracked. -/
def s3_put_text (store : Store) (key content : String) : Store :=
  sput store key (.vtext content)

/-- `_s3_put_text(cfg, key, json.dumps(manifest), ...)` as the server uses it
for manifests: the payload is kept structurally. -/
def s3_put_json (store : Store) (key : String) (j : Json) : Store :=
  sput store key (.vjson j)

/-- `_s3_exists` (src 76-85): `head_object`, with 404/NoSuchKey mapped to
`false`. -/
def s3_exists (store : Store) (key : String) : Bool :=
  (sget store key).isSome

/-! ### The backing store's listing API

`list_objects_v2` is the external store contract (spec §6), not this
repository's code: lexicographic key order, optional one-level grouping by
the `/` delimiter into `CommonPrefixes`, a `MaxKeys` page size counting
both contents and common prefixes, an `IsTruncated` flag and an opaque
`NextContinuationToken`.  The continuation token is modeled as an opaque
unary string (callers must never interpret it, and none does). -/

/-- Code-point order on strings (the store lists keys in this order). -/
def listCharLe : List Char → List Char → Bool
  | [], _ => true
  | _ :: _, [] => false
  | a :: as, b :: bs => if a = b then listCharLe as bs else decide (a < b)

/-- Insert into a `listCharLe`-sorted key list. -/
def insertKey (x : String) : List String → List String
  | [] => [x]
  | y :: ys => if listCharLe x.data y.data then x :: y :: ys else y :: insertKey x ys

/-- Sort a key list in the store's listing order. -/
def sortKeys : List String → List String
  | [] => []
  | x :: xs => insertKey x (sortKeys xs)

/-- One result entry of a delimiter listing: a concrete key, or a common
prefix standing for every deeper key sharing the next path segment. -/
inductive S3Entry where
  | content (key : String)
  | childPfx (p : String)
deriving DecidableEq

/-- The segment of `cs` before its first `/`, or `none` when `cs` has no
slash at all. -/
def firstSegAux : List Char → Option (List Char)
  | [] => none
  | c :: cs => if c = '/' then some [] else (firstSegAux cs).map fun seg => c :: seg

/-- Classify a key relative to the listing `pfx`: with the delimiter active,
a key with a deeper path collapses into its first child segment. -/
def entryFor (pfx : String) (useDelim : Bool) (k : String) : S3Entry :=
  if useDelim then
    match firstSegAux (k.data.drop pfx.data.length) with
    | some seg => .childPfx (pfx ++ String.mk seg ++ "/")
    | none => .content k
  else .content k

/-- Collapse adjacent duplicates (keys under one child are adjacent in
sorted order, so their common prefix is reported once). -/
def dedupAdj : List S3Entry → List S3Entry
  | [] => []
  | [e] => [e]
  | e1 :: e2 :: rest =>
    if e1 = e2 then dedupAdj (e2 :: rest) else e1 :: dedupAdj (e2 :: rest)

/-- The full (unpaginated) entry sequence the store would return for `pfx`. -/
def s3AllEntries (store : Store) (pfx : String) (useDelim : Bool) : List S3Entry :=
  dedupAdj ((((sortKeys (store.map Prod.fst)).filter fun k =>
    strStartsWith k pfx).map (entryFor pfx useDelim)))

/-- A `list_objects_v2` response. -/
structure ListResp where
  contents : List String
  commonPrefixes : List String
  nextToken : Option String
  isTruncated : Bool

/-- The common-prefix component of a listing entry. -/
def cpOf : S3Entry → Option String
  | .childPfx p => some p
  | .content _ => none

/-- The concrete-key component of a listing entry. -/
def keyOf : S3Entry → Option String
  | .content k => some k
  | .childPfx _ => none

/-- Decode a continuation token (opaque unary encoding of a position). -/
def tokenIndex : Option String → Nat
  | none => 0
  | some s => s.data.length

/-- Encode a position as a continuation token. -/
def mkToken (n : Nat) : String :=
  String.mk (List.replicate n 'x')

/-- The store's `list_objects_v2`: a `MaxKeys`-sized page of the full entry
sequence starting at the token's position. -/
def list_objects_v2 (store : Store) (pfx : String) (useDelim : Bool)
    (maxKeys : Nat) (tok : Option String) : ListResp :=
  let entries := s3AllEntries store pfx useDelim
  let start := tokenIndex tok
  let page := (entries.drop start).take maxKeys
  let truncated := decide (start + maxKeys < entries.length)
  { contents := page.filterMap keyOf
    commonPrefixes := page.filterMap cpOf
    nextToken := if truncated then some (mkToken (start + maxKeys)) else none
    isTruncated := truncated }

/-- Python truthiness of the `continuation_token` argument: the token is
forwarded to the store only when it is a non-empty string (src 102-103). -/
def truthyTok : Option String → Option String
  | none => none
  | some s => if s = "" then none else some s

/-- The result shape of `_list_common_prefixes`. -/
structure PfxListResult where
  prefixes : List String
  next_continuation_token : Option String
  is_truncated : Bool

/-- `_list_common_prefixes` (src 88-112): one-level listing with the page
size clamped to `[1, 1000]` and the caller's cursor forwarded unchanged. -/
def list_common_prefixes (store : Store) (pfx : String) (limit : Nat)
    (continuation_token : Option String) : PfxListResult :=
  let resp := list_objects_v2 store (ensure_trailing_slash pfx) true
    (max 1 (min limit 1000)) (truthyTok continuation_token)
  { prefixes := resp.commonPrefixes
    next_continuation_token := resp.nextToken
    is_truncated := resp.isTruncated }

/-! ### Tool functions -/

/-- `hub_status` (src 115-127): the sanitized effective configuration —
exactly the `HubConfig` fields. -/
def hub_status (cfg : HubConfig) : Except HubError HubConfig :=
  if ¬ cfg.use_s3 then .error .configError else .ok cfg

/-- Interface of the external `AgentRegistry` collaborator (the
`strands_hub` package; out of scope per spec §1/§6, specified only at its
boundary).  The registry tools below delegate to it wholesale. -/
structure AgentRegistryI where
  list_agents : Option String → Except HubError (List Json)
  get_agent : String → Except HubError (Option Json)
  update_agent : String → Option String → Option (List String) → Option String →
    Option String → Option String → Option String → Except HubError (Option Json)

/-- `registry_list_agents` (src 135-138): a pure delegation — note that it
performs no configuration check of its own. -/
def registry_list_agents (reg : AgentRegistryI) (tag : Option String) :
    Except HubError (List Json) :=
  reg.list_agents tag

/-- `registry_get_agent` (src 141-144). -/
def registry_get_agent (reg : AgentRegistryI) (agent_id : String) :
    Except HubError (Option Json) :=
  reg.get_agent agent_id

/-- `registry_update_metadata` (src 147-166). -/
def registry_update_metadata (reg : AgentRegistryI) (agent_id : String)
    (description : Option String) (tags : Option (List String))
    (repo_url owner environment model_id : Option String) :
    Except HubError (Option Json) :=
  reg.update_agent agent_id description tags repo_url owner environment model_id

/-- Interface of the external `S3PromptManager` collaborator. -/
structure PromptManagerI where
  get_current : Bool → Except HubError String
  get_version : String → Except HubError String

/-- `prompts_get_current` (src 174-177): pure delegation. -/
def prompts_get_current (pm : PromptManagerI) (force_refresh : Bool) :
    Except HubError String :=
  pm.get_current force_refresh

/-- `prompts_get_version` (src 180-183): pure delegation. -/
def prompts_get_version (pm : PromptManagerI) (version : String) :
    Except HubError String :=
  pm.get_version version

/-- The version object's key, `f"{cfg.prompts_prefix}{agent_id}/{version}.txt"`
(src 213). -/
def versionKey (cfg : HubConfig) (agent_id version : String) : String :=
  cfg.prompts_pfx ++ agent_id ++ "/" ++ version ++ ".txt"

/-- The manifest's key, `f"{cfg.prompts_prefix}{agent_id}/versions.json"`
(src 190, 219). -/
def manifestKey (cfg : HubConfig) (agent_id : String) : String :=
  cfg.prompts_pfx ++ agent_id ++ "/versions.json"

/-- The default manifest `{"versions": [], "current": None}` (src 193, 227). -/
def defaultManifest : Json :=
  .obj [("versions", .arr []), ("current", .null)]

/-- `prompts_list_versions` (src 186-193). -/
def prompts_list_versions (jloads : String → Option Json) (cfg : HubConfig)
    (store : Store) (agent_id : String) : Except HubError Json :=
  if ¬ cfg.use_s3 then .error .configError
  else if s3_exists store (manifestKey cfg agent_id) then
    s3_get_json jloads store (manifestKey cfg agent_id)
  else .ok defaultManifest

/-- Src 222-223: `if "versions" not in manifest or not isinstance(
manifest["versions"], list): manifest["versions"] = []`. -/
def normVersions (fields : List (String × Json)) : List (String × Json) :=
  match jlookup fields "versions" with
  | some (.arr _) => fields
  | _ => jsetFields fields "versions" (.arr [])

/-- Src 224-225: `if "current" not in manifest: manifest["current"] = None`. -/
def normCurrent (fields : List (String × Json)) : List (String × Json) :=
  match jlookup fields "current" with
  | some _ => fields
  | none => jsetFields fields "current" .null

/-- Manifest normalization (src 222-225): default a missing or non-list
`versions` to `[]` and a missing `current` to `None`.  On a non-object
manifest the Python item assignments would raise (`TypeError`). -/
def normalizeManifest : Json → Except HubError Json
  | .obj fields => .ok (.obj (normCurrent (normVersions fields)))
  | _ => .error (.pyError "manifest is not a JSON object")

/-- The manifest's `versions` list; total, but on every modeled path the
manifest has been normalized so the field is a JSON array. -/
def manifestVersionsList (m : Json) : List Json :=
  match jget m "versions" with
  | some (.arr l) => l
  | _ => []

/-- `v.get("version") == version` for one manifest entry (a Python `dict`). -/
def entryMatchesF (fields : List (String × Json)) (version : String) : Bool :=
  match jlookup fields "version" with
  | some (.str s) => s == version
  | _ => false

/-- `any(v.get("version") == version for v in manifest["versions"])`
(src 229); a non-dict entry would raise `AttributeError` in Python. -/
def hasVersionEntry : List Json → String → Except HubError Bool
  | [], _ => .ok false
  | e :: rest, version =>
    match e with
    | .obj fields =>
      if entryMatchesF fields version then .ok true
      else hasVersionEntry rest version
    | _ => .error (.pyError "manifest entry is not a dict")

/-- The manifest-level duplicate check of src 229 applied to a manifest. -/
def manifestHasVersion (m : Json) (version : String) : Except HubError Bool :=
  hasVersionEntry (manifestVersionsList m) version

/-- The new manifest entry
`{"version": version, "note": note, "created_at": time.time()}` (src 232). -/
def mkEntry (version : String) (note : Option String) (now : Int) : Json :=
  .obj [("version", .str version),
        ("note", match note with | some s => .str s | none => .null),
        ("created_at", .num now)]

/-- `manifest["versions"].append(entry)` (src 232). -/
def appendVersion (m : Json) (version : String) (note : Option String)
    (now : Int) : Json :=
  jset m "versions" (.arr (manifestVersionsList m ++ [mkEntry version note now]))

/-- The manifest-reading block of `prompts_create_version` (src 220-227):
read the manifest if present (normalizing its fields), else start from the
default manifest. -/
def manifestLoad (jloads : String → Option Json) (store : Store) (mkey : String) :
    Except HubError Json :=
  if s3_exists store mkey then
    match s3_get_json jloads store mkey with
    | .error e => .error e
    | .ok j => normalizeManifest j
  else .ok defaultManifest

/-- The success payload of `prompts_create_version`
(`{"ok": True, "version_key": ..., "manifest_key": ...}`). -/
structure CreateVersionOk where
  version_key : String
  manifest_key : String

/-- `prompts_create_version` (src 196-236), returning the resulting store on
every path: note that the new version object is written (src 217) before
the manifest-level duplicate check (src 229), so that failure path leaves
the version object in the store. -/
def prompts_create_version (jloads : String → Option Json) (cfg : HubConfig)
    (now : Int) (agent_id version content : String) (note : Option String)
    (store : Store) : Except HubError CreateVersionOk × Store :=
  if ¬ cfg.use_s3 then (.error .configError, store)
  else if version = "" then (.error (.valueError "version is required"), store)
  else if s3_exists store (versionKey cfg agent_id version) then
    (.error (.runtimeError ("Prompt version already exists: " ++ version)), store)
  else
    let store1 := s3_put_text store (versionKey cfg agent_id version) content
    match manifestLoad jloads store1 (manifestKey cfg agent_id) with
    | .error e => (.error e, store1)
    | .ok m =>
      match manifestHasVersion m version with
      | .error e => (.error e, store1)
      | .ok true =>
        (.error (.runtimeError ("Prompt version already listed in manifest: " ++ version)),
         store1)
      | .ok false =>
        (.ok { version_key := versionKey cfg agent_id version,
               manifest_key := manifestKey cfg agent_id },
         s3_put_json store1 (manifestKey cfg agent_id)
           (appendVersion m version note now))

/-- The result shape of `metrics_list` and `sessions_list_messages`. -/
structure KeysListResult where
  keys : List String
  next_continuation_token : Option String
  is_truncated : Bool

/-- `metrics_list` (src 244-276). -/
def metrics_list (cfg : HubConfig) (store : Store) (date_pfx : Option String)
    (agent_id : Option String) (limit : Nat) (continuation_token : Option String) :
    Except HubError KeysListResult :=
  if ¬ cfg.use_s3 then .error .configError
  else
    let pfx :=
      match date_pfx with
      | some d => cfg.metrics_pfx ++ d ++ "/"
      | none => cfg.metrics_pfx
    let resp := list_objects_v2 store pfx false (max 1 (min limit 1000))
      (truthyTok continuation_token)
    let keys :=
      match agent_id with
      | some a => resp.contents.filter fun k => strStartsWith (lastSeg k) (a ++ "_")
      | none => resp.contents
    .ok { keys := keys
          next_continuation_token := resp.nextToken
          is_truncated := resp.isTruncated }

/-- `metrics_get` (src 279-285): the namespace check precedes the store
read. -/
def metrics_get (jloads : String → Option Json) (cfg : HubConfig) (store : Store)
    (s3_key : String) : Except HubError Json :=
  if ¬ cfg.use_s3 then .error .configError
  else if ¬ strStartsWith s3_key cfg.metrics_pfx then
    .error (.valueError "s3_key must be under metrics prefix")
  else s3_get_json jloads store s3_key

/-- The result shape of `sessions_list`. -/
structure SessionsListResult where
  session_ids : List String
  session_prefixes : List String
  next_continuation_token : Option String
  is_truncated : Bool

/-- `sessions_list` (src 293-310). -/
def sessions_list (cfg : HubConfig) (store : Store) (limit : Nat)
    (continuation_token : Option String) : Except HubError SessionsListResult :=
  if ¬ cfg.use_s3 then .error .configError
  else
    let root := sessions_root cfg
    let resp := list_common_prefixes store root limit continuation_token
    .ok { session_ids := (resp.prefixes.filter fun p => strStartsWith p root).map
            fun p => rstripSlash (strDrop p root.data.length)
          session_prefixes := resp.prefixes
          next_continuation_token := resp.next_continuation_token
          is_truncated := resp.is_truncated }

/-- `sessions_get_session_json` (src 313-318). -/
def sessions_get_session_json (jloads : String → Option Json) (cfg : HubConfig)
    (store : Store) (session_id : String) : Except HubError Json :=
  if ¬ cfg.use_s3 then .error .configError
  else s3_get_json jloads store (sessions_root cfg ++ session_id ++ "/session.json")

/-- The result shape of `sessions_list_agents`. -/
structure AgentsListResult where
  agent_ids : List String
  agent_prefixes : List String
  next_continuation_token : Option String
  is_truncated : Bool

/-- `sessions_list_agents` (src 321-335). -/
def sessions_list_agents (cfg : HubConfig) (store : Store) (session_id : String)
    (limit : Nat) (continuation_token : Option String) :
    Except HubError AgentsListResult :=
  if ¬ cfg.use_s3 then .error .configError
  else
    let agents_pfx := sessions_root cfg ++ session_id ++ "/agents/"
    let resp := list_common_prefixes store agents_pfx limit continuation_token
    .ok { agent_ids := (resp.prefixes.filter fun p => strStartsWith p agents_pfx).map
            fun p => rstripSlash (strDrop p agents_pfx.data.length)
          agent_prefixes := resp.prefixes
          next_continuation_token := resp.next_continuation_token
          is_truncated := resp.is_truncated }

/-- `sessions_get_agent_json` (src 338-343). -/
def sessions_get_agent_json (jloads : String → Option Json) (cfg : HubConfig)
    (store : Store) (session_id agent_id : String) : Except HubError Json :=
  if ¬ cfg.use_s3 then .error .configError
  else s3_get_json jloads store
    (sessions_root cfg ++ session_id ++ "/agents/" ++ agent_id ++ "/agent.json")

/-- `sessions_list_messages` (src 346-374): a flat (no-delimiter) listing,
with the returned page sorted. -/
def sessions_list_messages (cfg : HubConfig) (store : Store)
    (session_id agent_id : String) (limit : Nat)
    (continuation_token : Option String) : Except HubError KeysListResult :=
  if ¬ cfg.use_s3 then .error .configError
  else
    let pfx := sessions_root cfg ++ session_id ++ "/agents/" ++ agent_id ++ "/messages/"
    let resp := list_objects_v2 store pfx false (max 1 (min limit 1000))
      (truthyTok continuation_token)
    .ok { keys := sortKeys resp.contents
          next_continuation_token := resp.nextToken
          is_truncated := resp.isTruncated }

/-- `sessions_get_message_json` (src 377-390): a bare name is resolved
relative to the messages prefix; the subsequent `startswith` re-check can
never fire (the key is the base or base-prefixed by construction). -/
def sessions_get_message_json (jloads : String → Option Json) (cfg : HubConfig)
    (store : Store) (session_id message_key agent_id : String) :
    Except HubError Json :=
  if ¬ cfg.use_s3 then .error .configError
  else
    let base := sessions_root cfg ++ session_id ++ "/agents/" ++ agent_id ++ "/messages/"
    let key := if strStartsWith message_key base then message_key
      else base ++ lstripSlash message_key
    if ¬ strStartsWith key base then
      .error (.valueError "message_key must be under the session messages prefix")
    else s3_get_json jloads store key

/-- The result of `sessions_get_raw`: a parsed payload or the raw text. -/
inductive RawResult where
  | jsonRes (s3_key : String) (j : Json)
  | textRes (s3_key : String) (t : String)

/-- `sessions_get_raw` (src 393-408): namespace check, fetch, then a
permissive parse — any `json.loads` failure falls back to raw text. -/
def sessions_get_raw (jloads : String → Option Json) (cfg : HubConfig)
    (store : Store) (s3_key : String) : Except HubError RawResult :=
  if ¬ cfg.use_s3 then .error .configError
  else if ¬ strStartsWith s3_key (sessions_root cfg) then
    .error (.valueError "s3_key must be under sessions prefix")
  else
    match s3_get_text store s3_key with
    | .error e => .error e
    | .ok text =>
      match jloads text with
      | some j => .ok (.jsonRes s3_key j)
      | none => .ok (.textRes s3_key text)

/-! ### Interleaved execution of `prompts_create_version`

The function performs a sequence of individually-atomic store operations
(`head_object`, `put_object`, `head_object`, `get_object`, `put_object`);
between any two of them another process may run.  `cvStep` is
`prompts_create_version` cut at exactly those store-operation boundaries
(each phase transition below performs at most one store operation, and the
expressions are the same ones `prompts_create_version` uses), and `cvRun2`
interleaves two callers under an explicit schedule. -/

/-- The arguments of one `prompts_create_version` caller. -/
structure CvCall where
  agent_id : String
  version : String
  content : String
  note : Option String
  now : Int

/-- The program counter of one in-flight `prompts_create_version` call, with
the data it carries across store operations. -/
inductive CvPhase where
  | pStart
  | pPutVersion
  | pCheckManifest
  | pGetManifest (mexists : Bool)
  | pPutManifest (m : Json)
  | pDone (r : Except HubError Unit)

/-- One atomic step of an in-flight `prompts_create_version` call. -/
def cvStep (jloads : String → Option Json) (cfg : HubConfig) (c : CvCall) :
    CvPhase → Store → CvPhase × Store
  | .pStart, store =>
    if ¬ cfg.use_s3 then (.pDone (.error .configError), store)
    else if c.version = "" then
      (.pDone (.error (.valueError "version is required")), store)
    else if s3_exists store (versionKey cfg c.agent_id c.version) then
      (.pDone (.error (.runtimeError ("Prompt version already exists: " ++ c.version))),
       store)
    else (.pPutVersion, store)
  | .pPutVersion, store =>
    (.pCheckManifest, s3_put_text store (versionKey cfg c.agent_id c.version) c.content)
  | .pCheckManifest, store =>
    (.pGetManifest (s3_exists store (manifestKey cfg c.agent_id)), store)
  | .pGetManifest b, store =>
    let mread : Except HubError Json :=
      if b then
        match s3_get_json jloads store (manifestKey cfg c.agent_id) with
        | .error e => .error e
        | .ok j => normalizeManifest j
      else .ok defaultManifest
    match mread with
    | .error e => (.pDone (.error e), store)
    | .ok m =>
      match manifestHasVersion m c.version with
      | .error e => (.pDone (.error e), store)
      | .ok true =>
        (.pDone (.error (.runtimeError
          ("Prompt version already listed in manifest: " ++ c.version))), store)
      | .ok false => (.pPutManifest (appendVersion m c.version c.note c.now), store)
  | .pPutManifest m, store =>
    (.pDone (.ok ()), s3_put_json store (manifestKey cfg c.agent_id) m)
  | .pDone r, store => (.pDone r, store)

/-- Run two interleaved callers under a schedule (`false` steps caller 0,
`true` steps caller 1). -/
def cvRun2 (jloads : String → Option Json) (cfg : HubConfig) (c0 c1 : CvCall) :
    List Bool → CvPhase × CvPhase × Store → CvPhase × CvPhase × Store
  | [], st => st
  | b :: rest, (p0, p1, store) =>
    if b then
      let s := cvStep jloads cfg c1 p1 store
      cvRun2 jloads cfg c0 c1 rest (p0, s.1, s.2)
    else
      let s := cvStep jloads cfg c0 p0 store
      cvRun2 jloads cfg c0 c1 rest (s.1, p1, s.2)

/-- Iterate `cvStep` for one caller running alone. -/
def cvSteps (jloads : String → Option Json) (cfg : HubConfig) (c : CvCall) :
    Nat → CvPhase × Store → CvPhase × Store
  | 0, ps => ps
  | Nat.succ k, ps => cvSteps jloads cfg c k (cvStep jloads cfg c ps.1 ps.2)

/-! ### Concrete fixtures used by witnesses and counterexamples -/

/-- A concrete configuration with the backend enabled, matching the layout
in the source's module docstring. -/
def cfg0 : HubConfig :=
  { use_s3 := true
    bucket := "hub-bucket"
    region := "us-east-1"
    sessions_pfx := "sessions"
    metrics_pfx := "metrics/"
    prompts_pfx := "system_prompts/"
    registry_key := "registry.json" }

/-- The same configuration with the backend disabled. -/
def cfgOff : HubConfig :=
  { cfg0 with use_s3 := false }

/-- A concrete stand-in for `json.loads` that recognizes the one JSON text
the spec's test scenario uses and rejects everything else. -/
def jloads0 (s : String) : Option Json :=
  if s = "\x7b\"a\":1\x7d" then some (.obj [("a", .num 1)]) else none

/-! ### Abstractions used by the claim statements -/

/-- The manifest's `current` pointer as a value: the label of the active
version, or `none`.  A missing `current` field and an explicit `null` both
denote "no current version" — the server's own default manifest
(src 193, 227) represents the absent pointer as `"current": None`. -/
def currentPtr (m : Json) : Option String :=
  match jget m "current" with
  | some (.str s) => some s
  | _ => none

/-- The raw `current` field of the manifest stored at `mkey` (present value,
or `none` when the field, the manifest, or a parse of it is missing). -/
def currentFieldAt (jloads : String → Option Json) (store : Store) (mkey : String) :
    Option Json :=
  match sget store mkey with
  | some (.vjson j) => jget j "current"
  | some (.vtext s) =>
    match jloads s with
    | some j => jget j "current"
    | none => none
  | none => none

/-- The `current` pointer of the manifest stored at `mkey`. -/
def currentPtrAt (jloads : String → Option Json) (store : Store) (mkey : String) :
    Option String :=
  match sget store mkey with
  | some (.vjson j) => currentPtr j
  | some (.vtext s) =>
    match jloads s with
    | some j => currentPtr j
    | none => none
  | none => none

/-- Whether a manifest entry carries the given version label. -/
def matchesVersion (version : String) (e : Json) : Bool :=
  match e with
  | .obj fields => entryMatchesF fields version
  | _ => false

/-- Whether the manifest lists an entry with the given label. -/
def hasLabel (m : Json) (version : String) : Bool :=
  (manifestVersionsList m).any (matchesVersion version)

/-- How many manifest entries carry the given label. -/
def labelCount (m : Json) (version : String) : Nat :=
  (manifestVersionsList m).countP (matchesVersion version)

/-- The child identifiers `sessions_list` computes from a run of listing
entries (filter to the root, strip it and the trailing separator). -/
def processIds (root : String) (entries : List S3Entry) : List String :=
  ((entries.filterMap cpOf).filter fun p => strStartsWith p root).map
    fun p => rstripSlash (strDrop p root.data.length)

/-- All session identifiers under the sessions root (the unpaginated
listing). -/
def sessionsAllIds (cfg : HubConfig) (store : Store) : List String :=
  processIds (sessions_root cfg) (s3AllEntries store (sessions_root cfg) true)

/-- Drive `sessions_list` page by page, resuming with each returned cursor,
and concatenate the pages (the paging loop a client would run). -/
def sessionsCollect (cfg : HubConfig) (store : Store) (limit : Nat) :
    Nat → Option String → List String
  | 0, _ => []
  | Nat.succ fuel, tok =>
    match sessions_list cfg store limit tok with
    | .error _ => []
    | .ok r =>
      r.session_ids ++
        (if r.is_truncated then sessionsCollect cfg store limit fuel
          r.next_continuation_token else [])

/-- What one `sessions_list` page amounts to over the full entry sequence:
the `n`-sized window of entries at the cursor's position, post-processed
into identifiers. -/
def sessionsPage (cfg : HubConfig) (store : Store) (limit : Nat)
    (tok : Option String) : SessionsListResult :=
  let root := sessions_root cfg
  let entries := s3AllEntries store root true
  let n := max 1 (min limit 1000)
  let s := tokenIndex (truthyTok tok)
  let page := (entries.drop s).take n
  let truncated := decide (s + n < entries.length)
  { session_ids := processIds root page
    session_prefixes := page.filterMap cpOf
    next_continuation_token := if truncated then some (mkToken (s + n)) else none
    is_truncated := truncated }

/-- The body of `sessions_get_raw` after its namespace guard: fetch, then
parse permissively. -/
def permissiveFetch (jloads : String → Option Json) (store : Store)
    (s3_key : String) : Except HubError RawResult :=
  match s3_get_text store s3_key with
  | .error e => .error e
  | .ok text =>
    match jloads text with
    | some j => .ok (.jsonRes s3_key j)
    | none => .ok (.textRes s3_key text)

/-- The last code point of a string. -/
def lastChar (s : String) : Option Char :=
  s.data.reverse.head?

/-! ### Further concrete fixtures -/

/-- Three sessions `a`, `b`, `c` (the spec's pagination scenario). -/
def store0 : Store :=
  [("sessions/a/x", .vtext "1"), ("sessions/b/y", .vtext "2"),
   ("sessions/c/z", .vtext "3")]

/-- A store holding an object at the literal key `sessions/../secret`. -/
def storeEsc : Store :=
  [("sessions/../secret", .vtext "top-secret")]

/-- A store with a valid-JSON session payload and a non-JSON one. -/
def storeRaw : Store :=
  [("sessions/s1/x", .vtext "\x7b\"a\":1\x7d"), ("sessions/s1/y", .vtext "not json")]

/-- A registry collaborator that always answers successfully. -/
def regStub : AgentRegistryI :=
  { list_agents := fun _ => .ok []
    get_agent := fun _ => .ok none
    update_agent := fun _ _ _ _ _ _ _ => .ok none }

/-- Caller creating label `v1` (concurrent-run fixture). -/
def cvA : CvCall :=
  { agent_id := "a", version := "v1", content := "c1", note := none, now := 1 }

/-- Caller creating label `v2`. -/
def cvB : CvCall :=
  { agent_id := "a", version := "v2", content := "c2", note := none, now := 2 }

/-- First caller creating label `v` (same-label fixture). -/
def cvC : CvCall :=
  { agent_id := "a", version := "v", content := "c1", note := none, now := 1 }

/-- Second caller creating label `v`. -/
def cvD : CvCall :=
  { agent_id := "a", version := "v", content := "c2", note := none, now := 2 }

/-- Schedule: caller 0 runs up to (not including) its manifest write, then
caller 1 does the same, then each performs its manifest write in turn. -/
def schedOverlap : List Bool :=
  [false, false, false, false, true, true, true, true, false, true]

/-- Schedule: both callers pass the version-existence check before either
writes, then run to completion one after the other. -/
def schedRace : List Bool :=
  [false, true, false, false, false, true, true, true, false, true]

/-- A store whose manifest for agent `a` has an explicit current pointer. -/
def storeCur : Store :=
  [("system_prompts/a/versions.json",
    .vjson (.obj [("versions", .arr []), ("current", .str "v0")]))]

/-- A store whose manifest for agent `a` already lists label `v1`, while no
version object exists at `v1`'s key. -/
def storeDup : Store :=
  [("system_prompts/a/versions.json",
    .vjson (.obj [("versions", .arr [mkEntry "v1" none 0]), ("current", .null)]))]

/-- A store whose manifest for agent `a` lacks both the `versions` list and
the `current` field. -/
def storeMal : Store :=
  [("system_prompts/a/versions.json", .vjson (.obj [("extra", .str "e")]))]

/-! ## Helper lemmas -/

theorem sget_sput_self (st : Store) (k : String) (v : StoreVal) :
    sget (sput st k v) k = some v := by
  induction st with
  | nil => simp [sput, sget]
  | cons kv rest ih =>
    rcases kv with ⟨k', v'⟩
    by_cases h : k' = k
    · simp [sput, sget, h]
    · simp [sput, sget, h, ih]

theorem sget_sput_ne (st : Store) (k k' : String) (v : StoreVal) (h : k' ≠ k) :
    sget (sput st k v) k' = sget st k' := by
  induction st with
  | nil => simp [sput, sget, Ne.symm h]
  | cons kv rest ih =>
    rcases kv with ⟨k'', v''⟩
    by_cases hk : k'' = k
    · subst hk
      simp [sput, sget, Ne.symm h]
    · simp [sput, sget, hk, ih]

theorem strData_append (s t : String) : (s ++ t).data = s.data ++ t.data := by
  cases s; cases t; rfl

theorem lastChar_append (s t : String) (h : t.data ≠ []) :
    lastChar (s ++ t) = lastChar t := by
  unfold lastChar
  rw [strData_append, List.reverse_append]
  cases ht : t.data.reverse with
  | nil => exact absurd (List.reverse_eq_nil_iff.mp ht) h
  | cons c cs => simp

theorem lastChar_versionKey (cfg : HubConfig) (agent_id version : String) :
    lastChar (versionKey cfg agent_id version) = some 't' := by
  unfold versionKey
  rw [lastChar_append _ ".txt" (by decide)]
  rfl

theorem lastChar_manifestKey (cfg : HubConfig) (agent_id : String) :
    lastChar (manifestKey cfg agent_id) = some 'n' := by
  unfold manifestKey
  rw [lastChar_append _ "/versions.json" (by decide)]
  rfl

theorem versionKey_ne_manifestKey (cfg : HubConfig) (agent_id version : String) :
    versionKey cfg agent_id version ≠ manifestKey cfg agent_id := by
  intro h
  have h1 := lastChar_versionKey cfg agent_id version
  rw [h, lastChar_manifestKey] at h1
  exact absurd h1 (by decide)

theorem versionKey_inj {cfg : HubConfig} {agent_id v1 v2 : String}
    (h : versionKey cfg agent_id v1 = versionKey cfg agent_id v2) : v1 = v2 := by
  have hd := congrArg String.data h
  simp only [versionKey, strData_append, List.append_assoc] at hd
  have h1 := List.append_cancel_left (List.append_cancel_left (List.append_cancel_left hd))
  exact String.ext (List.append_cancel_right h1)

theorem jlookup_jsetFields_self (f : List (String × Json)) (k : String) (v : Json) :
    jlookup (jsetFields f k v) k = some v := by
  induction f with
  | nil => simp [jsetFields, jlookup]
  | cons kv rest ih =>
    rcases kv with ⟨k', v'⟩
    by_cases h : k' = k
    · simp [jsetFields, jlookup, h]
    · simp [jsetFields, jlookup, h, ih]

theorem jlookup_jsetFields_ne (f : List (String × Json)) (k k' : String) (v : Json)
    (h : k' ≠ k) : jlookup (jsetFields f k v) k' = jlookup f k' := by
  induction f with
  | nil => simp [jsetFields, jlookup, Ne.symm h]
  | cons kv rest ih =>
    rcases kv with ⟨k'', v''⟩
    by_cases hk : k'' = k
    · subst hk
      simp [jsetFields, jlookup, Ne.symm h]
    · simp [jsetFields, jlookup, hk, ih]

theorem jget_jset_obj_self (f : List (String × Json)) (k : String) (v : Json) :
    jget (jset (.obj f) k v) k = some v := by
  simp [jset, jget, jlookup_jsetFields_self]

theorem jget_jset_obj_ne (f : List (String × Json)) (k k' : String) (v : Json)
    (h : k' ≠ k) : jget (jset (.obj f) k v) k' = jget (.obj f) k' := by
  simp [jset, jget, jlookup_jsetFields_ne _ _ _ _ h]

theorem normVersions_versions (fields : List (String × Json)) :
    ∃ l, jlookup (normVersions fields) "versions" = some (.arr l) := by
  unfold normVersions
  cases hv : jlookup fields "versions" with
  | none => exact ⟨[], jlookup_jsetFields_self _ _ _⟩
  | some v =>
    cases v with
    | arr l => exact ⟨l, hv⟩
    | null => exact ⟨[], jlookup_jsetFields_self _ _ _⟩
    | bool b => exact ⟨[], jlookup_jsetFields_self _ _ _⟩
    | num n => exact ⟨[], jlookup_jsetFields_self _ _ _⟩
    | str s => exact ⟨[], jlookup_jsetFields_self _ _ _⟩
    | obj f => exact ⟨[], jlookup_jsetFields_self _ _ _⟩

theorem normVersions_ne (fields : List (String × Json)) (k : String)
    (h : k ≠ "versions") : jlookup (normVersions fields) k = jlookup fields k := by
  unfold normVersions
  split
  · rfl
  · exact jlookup_jsetFields_ne _ _ _ _ h

theorem normCurrent_isSome (fields : List (String × Json)) :
    (jlookup (normCurrent fields) "current").isSome := by
  unfold normCurrent
  cases hv : jlookup fields "current" with
  | none => simp [jlookup_jsetFields_self]
  | some v => simp [hv]

theorem normCurrent_of_some (fields : List (String × Json)) (v : Json)
    (h : jlookup fields "current" = some v) : normCurrent fields = fields := by
  unfold normCurrent
  rw [h]

theorem normCurrent_of_none (fields : List (String × Json))
    (h : jlookup fields "current" = none) :
    jlookup (normCurrent fields) "current" = some .null := by
  unfold normCurrent
  rw [h]
  exact jlookup_jsetFields_self _ _ _

theorem normCurrent_ne (fields : List (String × Json)) (k : String)
    (h : k ≠ "current") : jlookup (normCurrent fields) k = jlookup fields k := by
  unfold normCurrent
  split
  · rfl
  · exact jlookup_jsetFields_ne _ _ _ _ h

theorem normalizeManifest_obj {j m : Json} (h : normalizeManifest j = .ok m) :
    ∃ fields, j = .obj fields ∧ m = .obj (normCurrent (normVersions fields)) := by
  cases j <;> simp [normalizeManifest] at h
  next fields => exact ⟨fields, rfl, h.symm⟩

theorem normalizeManifest_versions {j m : Json} (h : normalizeManifest j = .ok m) :
    ∃ l, jget m "versions" = some (.arr l) := by
  obtain ⟨fields, _, hm⟩ := normalizeManifest_obj h
  subst hm
  obtain ⟨l, hl⟩ := normVersions_versions fields
  refine ⟨l, ?_⟩
  show jlookup (normCurrent (normVersions fields)) "versions" = some (.arr l)
  rw [normCurrent_ne _ "versions" (by decide)]
  exact hl

theorem normalizeManifest_current_isSome {j m : Json}
    (h : normalizeManifest j = .ok m) : (jget m "current").isSome := by
  obtain ⟨fields, _, hm⟩ := normalizeManifest_obj h
  subst hm
  simpa [jget] using normCurrent_isSome (normVersions fields)

theorem normalizeManifest_current_of_some {j m : Json} (v : Json)
    (h : normalizeManifest j = .ok m) (hv : jget j "current" = some v) :
    jget m "current" = some v := by
  obtain ⟨fields, hj, hm⟩ := normalizeManifest_obj h
  subst hj; subst hm
  have hv' : jlookup fields "current" = some v := hv
  have hnv : jlookup (normVersions fields) "current" = some v := by
    rw [normVersions_ne _ _ (by decide)]; exact hv'
  simp [jget, normCurrent_of_some _ _ hnv, hnv]

theorem currentPtr_normalize {j m : Json} (h : normalizeManifest j = .ok m) :
    currentPtr m = currentPtr j := by
  obtain ⟨fields, hj, hm⟩ := normalizeManifest_obj h
  subst hj; subst hm
  unfold currentPtr
  cases hv : jlookup fields "current" with
  | none =>
    have h1 : jlookup (normVersions fields) "current" = none := by
      rw [normVersions_ne _ _ (by decide)]; exact hv
    simp [jget, normCurrent_of_none _ h1, hv]
  | some v =>
    have h1 : jlookup (normVersions fields) "current" = some v := by
      rw [normVersions_ne _ _ (by decide)]; exact hv
    simp [jget, normCurrent_of_some _ _ h1, h1, hv]

theorem appendVersion_current (f : List (String × Json)) (version : String)
    (note : Option String) (now : Int) :
    jget (appendVersion (.obj f) version note now) "current" = jget (.obj f) "current" := by
  unfold appendVersion
  exact jget_jset_obj_ne f "versions" "current" _ (by decide)

theorem currentPtr_appendVersion (f : List (String × Json)) (version : String)
    (note : Option String) (now : Int) :
    currentPtr (appendVersion (.obj f) version note now) = currentPtr (.obj f) := by
  unfold currentPtr
  rw [appendVersion_current]

theorem appendVersion_versionsList (f : List (String × Json)) (version : String)
    (note : Option String) (now : Int) :
    manifestVersionsList (appendVersion (.obj f) version note now) =
      manifestVersionsList (.obj f) ++ [mkEntry version note now] := by
  unfold appendVersion manifestVersionsList
  rw [jget_jset_obj_self]

theorem appendVersion_obj (f : List (String × Json)) (version : String)
    (note : Option String) (now : Int) :
    appendVersion (.obj f) version note now =
      .obj (jsetFields f "versions"
        (.arr (manifestVersionsList (.obj f) ++ [mkEntry version note now]))) := by
  unfold appendVersion jset
  rfl

theorem hasVersionEntry_cons_obj {fields : List (String × Json)} {rest : List Json}
    {version : String} :
    hasVersionEntry (.obj fields :: rest) version =
      if entryMatchesF fields version then .ok true
      else hasVersionEntry rest version := rfl

theorem hasVersionEntry_false_not_match {l : List Json} {version : String}
    (h : hasVersionEntry l version = .ok false) :
    ∀ e ∈ l, matchesVersion version e = false := by
  induction l with
  | nil => intro e he; cases he
  | cons e rest ih =>
    intro e' he'
    cases e with
    | obj fields =>
      rw [hasVersionEntry_cons_obj] at h
      by_cases hm : entryMatchesF fields version
      · rw [if_pos hm] at h; cases h
      · rw [if_neg hm] at h
        rcases List.mem_cons.mp he' with rfl | he2
        · have hf : entryMatchesF fields version = false := Bool.eq_false_iff.mpr hm
          simpa [matchesVersion] using hf
        · exact ih h e' he2
    | null => simp [hasVersionEntry] at h
    | bool b => simp [hasVersionEntry] at h
    | num n => simp [hasVersionEntry] at h
    | str s => simp [hasVersionEntry] at h
    | arr l2 => simp [hasVersionEntry] at h

theorem countP_eq_zero_of_hasVersionEntry_false {l : List Json} {version : String}
    (h : hasVersionEntry l version = .ok false) :
    l.countP (matchesVersion version) = 0 := by
  rw [List.countP_eq_zero]
  intro e he
  simpa using hasVersionEntry_false_not_match h e he

theorem hasVersionEntry_append_false {l l' : List Json} {version : String} {b : Bool}
    (h : hasVersionEntry l version = .ok false)
    (h' : hasVersionEntry l' version = .ok b) :
    hasVersionEntry (l ++ l') version = .ok b := by
  induction l with
  | nil => simpa using h'
  | cons e rest ih =>
    cases e with
    | obj fields =>
      rw [hasVersionEntry_cons_obj] at h
      rw [List.cons_append, hasVersionEntry_cons_obj]
      by_cases hm : entryMatchesF fields version
      · rw [if_pos hm] at h; cases h
      · rw [if_neg hm] at h
        rw [if_neg hm]
        exact ih h
    | null => simp [hasVersionEntry] at h
    | bool b2 => simp [hasVersionEntry] at h
    | num n => simp [hasVersionEntry] at h
    | str s => simp [hasVersionEntry] at h
    | arr l2 => simp [hasVersionEntry] at h

theorem entryMatchesF_mkEntry (version v' : String) (note : Option String) (now : Int) :
    matchesVersion v' (mkEntry version note now) = (version == v') := by
  simp [matchesVersion, mkEntry, entryMatchesF, jlookup]

theorem hasVersionEntry_single (version v' : String) (note : Option String) (now : Int) :
    hasVersionEntry [mkEntry version note now] v' = .ok (version == v') := by
  cases note with
  | none =>
    rw [show mkEntry version none now = Json.obj
      [("version", .str version), ("note", .null), ("created_at", .num now)] from rfl]
    rw [hasVersionEntry_cons_obj]
    have hm : entryMatchesF
        [("version", .str version), ("note", Json.null), ("created_at", .num now)] v' =
        (version == v') := by
      simp [entryMatchesF, jlookup]
    rw [hm]
    cases hb : version == v' <;> simp [hb, hasVersionEntry]
  | some s =>
    rw [show mkEntry version (some s) now = Json.obj
      [("version", .str version), ("note", .str s), ("created_at", .num now)] from rfl]
    rw [hasVersionEntry_cons_obj]
    have hm : entryMatchesF
        [("version", .str version), ("note", Json.str s), ("created_at", .num now)] v' =
        (version == v') := by
      simp [entryMatchesF, jlookup]
    rw [hm]
    cases hb : version == v' <;> simp [hb, hasVersionEntry]

theorem manifestLoad_sput_ne (jloads : String → Option Json) (store : Store)
    (k : String) (v : StoreVal) (mkey : String) (h : k ≠ mkey) :
    manifestLoad jloads (sput store k v) mkey = manifestLoad jloads store mkey := by
  simp only [manifestLoad, s3_exists, s3_get_json, sget_sput_ne store k mkey v (Ne.symm h)]

theorem manifestLoad_spec {jloads : String → Option Json} {store : Store}
    {mkey : String} {m : Json} (h : manifestLoad jloads store mkey = .ok m) :
    ∃ f, m = .obj f ∧ (∃ l, jlookup f "versions" = some (.arr l)) ∧
      (jlookup f "current").isSome := by
  unfold manifestLoad at h
  split at h
  · rcases hj : s3_get_json jloads store mkey with e | j <;> rw [hj] at h
    · cases h
    · obtain ⟨fields, _, hm⟩ := normalizeManifest_obj h
      refine ⟨normCurrent (normVersions fields), hm, ?_, ?_⟩
      · obtain ⟨l, hl⟩ := normVersions_versions fields
        refine ⟨l, ?_⟩
        rw [normCurrent_ne _ "versions" (by decide)]
        exact hl
      · exact normCurrent_isSome (normVersions fields)
  · cases h
    exact ⟨[("versions", .arr []), ("current", .null)], rfl, ⟨[], rfl⟩, rfl⟩

theorem manifestLoad_default {jloads : String → Option Json} {store : Store}
    {mkey : String} (h : sget store mkey = none) :
    manifestLoad jloads store mkey = .ok defaultManifest := by
  simp [manifestLoad, s3_exists, h]

theorem manifestLoad_vjson {jloads : String → Option Json} {store : Store}
    {mkey : String} {j : Json} (h : sget store mkey = some (.vjson j)) :
    manifestLoad jloads store mkey = normalizeManifest j := by
  simp [manifestLoad, s3_exists, s3_get_json, h]

/-- A manifest already in normalized shape passes normalization unchanged. -/
theorem normalizeManifest_of_wf (f : List (String × Json))
    (hv : ∃ l, jlookup f "versions" = some (.arr l))
    (hc : (jlookup f "current").isSome) :
    normalizeManifest (.obj f) = .ok (.obj f) := by
  obtain ⟨l, hl⟩ := hv
  rcases hcv : jlookup f "current" with _ | cv
  · rw [hcv] at hc; cases hc
  · simp [normalizeManifest, normVersions, normCurrent, hl, hcv]

/-! Characterizations of the branches of `prompts_create_version`, each under
exactly the conditions the source checks. -/

theorem create_config_off {jloads : String → Option Json} {cfg : HubConfig}
    (now : Int) (agent_id version content : String) (note : Option String)
    (store : Store) (h0 : cfg.use_s3 = false) :
    prompts_create_version jloads cfg now agent_id version content note store =
      (.error .configError, store) := by
  simp [prompts_create_version, h0]

theorem create_fail_empty {jloads : String → Option Json} {cfg : HubConfig}
    (now : Int) (agent_id content : String) (note : Option String)
    (store : Store) (h1 : cfg.use_s3 = true) :
    prompts_create_version jloads cfg now agent_id "" content note store =
      (.error (.valueError "version is required"), store) := by
  simp [prompts_create_version, h1]

theorem create_fail_exists {jloads : String → Option Json} {cfg : HubConfig}
    {now : Int} {agent_id version content : String} {note : Option String}
    {store : Store} {w : StoreVal} (h1 : cfg.use_s3 = true) (h2 : version ≠ "")
    (h3 : sget store (versionKey cfg agent_id version) = some w) :
    prompts_create_version jloads cfg now agent_id version content note store =
      (.error (.runtimeError ("Prompt version already exists: " ++ version)), store) := by
  simp [prompts_create_version, h1, h2, s3_exists, h3]

theorem create_load_manifest {jloads : String → Option Json} {cfg : HubConfig}
    {now : Int} {agent_id version content : String} {note : Option String}
    {store : Store} (h1 : cfg.use_s3 = true) (h2 : version ≠ "")
    (h3 : sget store (versionKey cfg agent_id version) = none) :
    prompts_create_version jloads cfg now agent_id version content note store =
      (match manifestLoad jloads store (manifestKey cfg agent_id) with
       | .error e => (.error e,
           s3_put_text store (versionKey cfg agent_id version) content)
       | .ok m =>
         match manifestHasVersion m version with
         | .error e => (.error e,
             s3_put_text store (versionKey cfg agent_id version) content)
         | .ok true =>
           (.error (.runtimeError ("Prompt version already listed in manifest: " ++ version)),
            s3_put_text store (versionKey cfg agent_id version) content)
         | .ok false =>
           (.ok { version_key := versionKey cfg agent_id version,
                  manifest_key := manifestKey cfg agent_id },
            s3_put_json (s3_put_text store (versionKey cfg agent_id version) content)
              (manifestKey cfg agent_id)
              (appendVersion m version note now))) := by
  have hne := versionKey_ne_manifestKey cfg agent_id version
  have htrans : manifestLoad jloads
      (s3_put_text store (versionKey cfg agent_id version) content)
      (manifestKey cfg agent_id) =
      manifestLoad jloads store (manifestKey cfg agent_id) := by
    unfold s3_put_text
    exact manifestLoad_sput_ne jloads store _ _ _ hne
  simp only [prompts_create_version, h1, h2, s3_exists, h3, htrans]
  simp

theorem create_success {jloads : String → Option Json} {cfg : HubConfig}
    {now : Int} {agent_id version content : String} {note : Option String}
    {store : Store} {m : Json} (h1 : cfg.use_s3 = true) (h2 : version ≠ "")
    (h3 : sget store (versionKey cfg agent_id version) = none)
    (h4 : manifestLoad jloads store (manifestKey cfg agent_id) = .ok m)
    (h5 : manifestHasVersion m version = .ok false) :
    prompts_create_version jloads cfg now agent_id version content note store =
      (.ok { version_key := versionKey cfg agent_id version,
             manifest_key := manifestKey cfg agent_id },
       s3_put_json (s3_put_text store (versionKey cfg agent_id version) content)
         (manifestKey cfg agent_id) (appendVersion m version note now)) := by
  rw [create_load_manifest h1 h2 h3, h4]
  dsimp only
  rw [h5]

theorem create_fail_dup {jloads : String → Option Json} {cfg : HubConfig}
    {now : Int} {agent_id version content : String} {note : Option String}
    {store : Store} {m : Json} (h1 : cfg.use_s3 = true) (h2 : version ≠ "")
    (h3 : sget store (versionKey cfg agent_id version) = none)
    (h4 : manifestLoad jloads store (manifestKey cfg agent_id) = .ok m)
    (h5 : manifestHasVersion m version = .ok true) :
    prompts_create_version jloads cfg now agent_id version content note store =
      (.error (.runtimeError ("Prompt version already listed in manifest: " ++ version)),
       s3_put_text store (versionKey cfg agent_id version) content) := by
  rw [create_load_manifest h1 h2 h3, h4]
  dsimp only
  rw [h5]

theorem currentFieldAt_sput_ne (jloads : String → Option Json) (store : Store)
    (k : String) (v : StoreVal) (mkey : String) (h : k ≠ mkey) :
    currentFieldAt jloads (sput store k v) mkey = currentFieldAt jloads store mkey := by
  unfold currentFieldAt
  rw [sget_sput_ne store k mkey v (Ne.symm h)]

theorem currentPtrAt_sput_ne (jloads : String → Option Json) (store : Store)
    (k : String) (v : StoreVal) (mkey : String) (h : k ≠ mkey) :
    currentPtrAt jloads (sput store k v) mkey = currentPtrAt jloads store mkey := by
  unfold currentPtrAt
  rw [sget_sput_ne store k mkey v (Ne.symm h)]

theorem s3_exists_false_sget {store : Store} {key : String}
    (h : s3_exists store key = false) : sget store key = none := by
  unfold s3_exists at h
  cases hval : sget store key
  · rfl
  · rw [hval] at h; cases h

/-- The current field/pointer of a loaded manifest, related back to the
stored manifest it was read from. -/
theorem manifestLoad_current_back {jloads : String → Option Json} {store : Store}
    {mkey : String} {m : Json} (h4 : manifestLoad jloads store mkey = .ok m) :
    (∀ v, currentFieldAt jloads store mkey = some v → jget m "current" = some v) ∧
    currentPtr m = currentPtrAt jloads store mkey := by
  unfold manifestLoad at h4
  split at h4
  · unfold s3_get_json at h4
    rcases hval : sget store mkey with _ | sval <;> rw [hval] at h4
    · cases h4
    · cases sval with
      | vjson j =>
        dsimp only at h4
        constructor
        · intro v hv
          have hj : jget j "current" = some v := by
            simpa [currentFieldAt, hval] using hv
          exact normalizeManifest_current_of_some v h4 hj
        · rw [currentPtr_normalize h4]
          simp [currentPtrAt, hval]
      | vtext s =>
        dsimp only at h4
        rcases hls : jloads s with _ | j <;> rw [hls] at h4
        · cases h4
        · dsimp only at h4
          constructor
          · intro v hv
            have hj : jget j "current" = some v := by
              simpa [currentFieldAt, hval, hls] using hv
            exact normalizeManifest_current_of_some v h4 hj
          · rw [currentPtr_normalize h4]
            simp [currentPtrAt, hval, hls]
  · next hex =>
      cases h4
      have hnone : sget store mkey = none :=
        s3_exists_false_sget (Bool.eq_false_iff.mpr hex)
      constructor
      · intro v hv
        simp [currentFieldAt, hnone] at hv
      · simp [currentPtrAt, hnone, defaultManifest, currentPtr, jget, jlookup]

theorem currentFieldAt_put_json_self (jloads : String → Option Json) (store : Store)
    (mkey : String) (j : Json) :
    currentFieldAt jloads (s3_put_json store mkey j) mkey = jget j "current" := by
  unfold currentFieldAt s3_put_json
  rw [sget_sput_self]

theorem currentPtrAt_put_json_self (jloads : String → Option Json) (store : Store)
    (mkey : String) (j : Json) :
    currentPtrAt jloads (s3_put_json store mkey j) mkey = currentPtr j := by
  unfold currentPtrAt s3_put_json
  rw [sget_sput_self]

/-- `prompts_create_version` never changes the stored manifest's `current`:
a present field keeps its value and the pointer value is preserved on every
path (the one write to the manifest appends to `versions` only). -/
theorem create_preserves_current (jloads : String → Option Json) (cfg : HubConfig)
    (now : Int) (agent_id version content : String) (note : Option String)
    (store : Store) :
    (∀ v, currentFieldAt jloads store (manifestKey cfg agent_id) = some v →
      currentFieldAt jloads
        (prompts_create_version jloads cfg now agent_id version content note store).2
        (manifestKey cfg agent_id) = some v) ∧
    currentPtrAt jloads
      (prompts_create_version jloads cfg now agent_id version content note store).2
      (manifestKey cfg agent_id) =
      currentPtrAt jloads store (manifestKey cfg agent_id) := by
  have hne := versionKey_ne_manifestKey cfg agent_id version
  by_cases h1 : cfg.use_s3 = true
  · by_cases h2 : version = ""
    · subst h2
      rw [create_fail_empty now agent_id content note store h1]
      exact ⟨fun v hv => hv, rfl⟩
    · rcases h3 : sget store (versionKey cfg agent_id version) with _ | w
      · rw [create_load_manifest h1 h2 h3]
        rcases h4 : manifestLoad jloads store (manifestKey cfg agent_id) with e | m <;>
          (try dsimp only)
        · unfold s3_put_text
          rw [currentFieldAt_sput_ne jloads store _ _ _ hne,
            currentPtrAt_sput_ne jloads store _ _ _ hne]
          exact ⟨fun v hv => hv, rfl⟩
        · rcases h5 : manifestHasVersion m version with e | b <;> (try dsimp only)
          · unfold s3_put_text
            rw [currentFieldAt_sput_ne jloads store _ _ _ hne,
              currentPtrAt_sput_ne jloads store _ _ _ hne]
            exact ⟨fun v hv => hv, rfl⟩
          · cases b <;> (try dsimp only)
            · -- success: the manifest write appends to `versions` only
              obtain ⟨f, hf, _, _⟩ := manifestLoad_spec h4
              have hback := manifestLoad_current_back h4
              constructor
              · intro v hv
                rw [currentFieldAt_put_json_self]
                rw [hf, appendVersion_current, ← hf]
                exact hback.1 v hv
              · rw [currentPtrAt_put_json_self]
                rw [hf, currentPtr_appendVersion, ← hf]
                exact hback.2
            · unfold s3_put_text
              rw [currentFieldAt_sput_ne jloads store _ _ _ hne,
                currentPtrAt_sput_ne jloads store _ _ _ hne]
              exact ⟨fun v hv => hv, rfl⟩
      · rw [create_fail_exists h1 h2 h3]
        exact ⟨fun v hv => hv, rfl⟩
  · rw [create_config_off now agent_id version content note store
      (Bool.eq_false_iff.mpr h1)]
    exact ⟨fun v hv => hv, rfl⟩

theorem ensure_trailing_slash_idem (p : String) :
    ensure_trailing_slash (ensure_trailing_slash p) = ensure_trailing_slash p := by
  unfold ensure_trailing_slash
  by_cases h : p.data.getLast? = some '/'
  · simp [h]
  · rw [if_neg h]
    have h2 : (p ++ "/").data.getLast? = some '/' := by
      rw [strData_append]
      exact List.getLast?_concat _
    rw [if_pos h2]

theorem sessions_list_eq {cfg : HubConfig} (h1 : cfg.use_s3 = true) (store : Store)
    (limit : Nat) (tok : Option String) :
    sessions_list cfg store limit tok = .ok (sessionsPage cfg store limit tok) := by
  unfold sessions_list list_common_prefixes list_objects_v2 sessionsPage
    sessions_root processIds
  rw [if_neg (by simp [h1])]
  dsimp only
  rw [ensure_trailing_slash_idem]

theorem processIds_append (root : String) (l1 l2 : List S3Entry) :
    processIds root (l1 ++ l2) = processIds root l1 ++ processIds root l2 := by
  simp [processIds]

theorem tokenIndex_truthyTok_mkToken (m : Nat) (h : 0 < m) :
    tokenIndex (truthyTok (some (mkToken m))) = m := by
  unfold truthyTok
  dsimp only
  rw [if_neg ?hne]
  case hne =>
    intro hh
    have hd := congrArg String.data hh
    simp [mkToken] at hd
    omega
  simp [tokenIndex, mkToken]

theorem sessionsCollect_from {cfg : HubConfig} {store : Store} {limit : Nat}
    (h1 : cfg.use_s3 = true) :
    ∀ fuel s tok, tokenIndex (truthyTok tok) = s →
      (s3AllEntries store (sessions_root cfg) true).length - s < fuel →
      sessionsCollect cfg store limit fuel tok =
        processIds (sessions_root cfg)
          ((s3AllEntries store (sessions_root cfg) true).drop s) := by
  intro fuel
  induction fuel with
  | zero => intro s tok htok hlt; omega
  | succ fuel ih =>
    intro s tok htok hlt
    have hn : 1 ≤ max 1 (min limit 1000) := le_max_left 1 _
    rw [show sessionsCollect cfg store limit (fuel + 1) tok =
      (match sessions_list cfg store limit tok with
       | .error _ => []
       | .ok r =>
         r.session_ids ++
           (if r.is_truncated then sessionsCollect cfg store limit fuel
             r.next_continuation_token else [])) from rfl]
    rw [sessions_list_eq h1]
    unfold sessionsPage
    dsimp only
    rw [htok]
    by_cases htr : s + max 1 (min limit 1000) <
      (s3AllEntries store (sessions_root cfg) true).length
    · rw [if_pos (by simpa using htr)]
      rw [if_pos (by simpa using htr)]
      rw [ih (s + max 1 (min limit 1000)) _
        (tokenIndex_truthyTok_mkToken _ (by omega)) (by omega)]
      rw [show (s3AllEntries store (sessions_root cfg) true).drop
          (s + max 1 (min limit 1000)) =
          ((s3AllEntries store (sessions_root cfg) true).drop s).drop
            (max 1 (min limit 1000)) from (List.drop_drop _ _ _).symm]
      rw [← processIds_append, List.take_append_drop]
    · rw [if_neg (by simpa using htr)]
      rw [List.append_nil]
      rw [List.take_of_length_le (by rw [List.length_drop]; omega)]

theorem prompts_list_versions_absent {jloads : String → Option Json} {cfg : HubConfig}
    {store : Store} {agent_id : String} (h1 : cfg.use_s3 = true)
    (h : sget store (manifestKey cfg agent_id) = none) :
    prompts_list_versions jloads cfg store agent_id = .ok defaultManifest := by
  simp [prompts_list_versions, h1, s3_exists, h]

theorem prompts_list_versions_vjson {jloads : String → Option Json} {cfg : HubConfig}
    {store : Store} {agent_id : String} {j : Json} (h1 : cfg.use_s3 = true)
    (h : sget store (manifestKey cfg agent_id) = some (.vjson j)) :
    prompts_list_versions jloads cfg store agent_id = .ok j := by
  simp [prompts_list_versions, h1, s3_exists, s3_get_json, h]

/-- Re-reading a manifest that the server just wrote back (an append to a
loaded manifest) yields it unchanged: normalization is the identity on it. -/
theorem manifestLoad_put_append {jloads : String → Option Json} {store : Store}
    {mkey : String} {m : Json} (version : String) (note : Option String) (now : Int)
    (h4 : manifestLoad jloads store mkey = .ok m) :
    manifestLoad jloads (s3_put_json store mkey (appendVersion m version note now))
      mkey = .ok (appendVersion m version note now) := by
  obtain ⟨f, hf, hv, hc⟩ := manifestLoad_spec h4
  subst hf
  rw [appendVersion_obj]
  simp only [manifestLoad, s3_exists, s3_put_json, sget_sput_self, Option.isSome_some,
    if_true, s3_get_json]
  apply normalizeManifest_of_wf
  · exact ⟨_, jlookup_jsetFields_self _ _ _⟩
  · rw [jlookup_jsetFields_ne _ _ _ _ (by decide)]
    exact hc

theorem labelCount_appendVersion (f : List (String × Json)) (version v' : String)
    (note : Option String) (now : Int) :
    labelCount (appendVersion (.obj f) version note now) v' =
      labelCount (.obj f) v' + (if version == v' then 1 else 0) := by
  unfold labelCount
  rw [appendVersion_versionsList, List.countP_append]
  congr 1
  simp [List.countP_cons, entryMatchesF_mkEntry]

theorem labelCount_eq_zero {m : Json} {version : String}
    (h : manifestHasVersion m version = .ok false) : labelCount m version = 0 := by
  unfold labelCount
  exact countP_eq_zero_of_hasVersionEntry_false h

theorem hasLabel_appendVersion_self (f : List (String × Json)) (version : String)
    (note : Option String) (now : Int) :
    hasLabel (appendVersion (.obj f) version note now) version = true := by
  unfold hasLabel
  rw [appendVersion_versionsList, List.any_append]
  simp [entryMatchesF_mkEntry]

/-- Running one caller's step machine alone (its five phases back to back,
with no interleaved writer) reproduces `prompts_create_version` exactly —
the machine is the same function cut at its store-operation boundaries. -/
theorem cvSteps_eq_create (jloads : String → Option Json) (cfg : HubConfig)
    (c : CvCall) (store : Store) :
    cvSteps jloads cfg c 5 (.pStart, store) =
      (.pDone ((prompts_create_version jloads cfg c.now c.agent_id c.version
        c.content c.note store).1.map fun _ => ()),
       (prompts_create_version jloads cfg c.now c.agent_id c.version c.content
         c.note store).2) := by
  by_cases h1 : cfg.use_s3 = true
  · by_cases h2 : c.version = ""
    · simp [cvSteps, cvStep, prompts_create_version, h1, h2, Except.map]
    · rcases h3 : sget store (versionKey cfg c.agent_id c.version) with _ | w
      · rw [create_load_manifest h1 h2 h3]
        have s1 : cvStep jloads cfg c .pStart store = (.pPutVersion, store) := by
          simp [cvStep, h1, h2, s3_exists, h3]
        rw [show cvSteps jloads cfg c 5 (CvPhase.pStart, store) =
          cvSteps jloads cfg c 4 (cvStep jloads cfg c .pStart store) from rfl, s1]
        rw [show cvSteps jloads cfg c 4 (CvPhase.pPutVersion, store) =
          cvSteps jloads cfg c 1 (cvStep jloads cfg c
            (.pGetManifest (s3_exists
              (s3_put_text store (versionKey cfg c.agent_id c.version) c.content)
              (manifestKey cfg c.agent_id)))
            (s3_put_text store (versionKey cfg c.agent_id c.version) c.content))
          from rfl]
        rw [show cvStep jloads cfg c
            (.pGetManifest (s3_exists
              (s3_put_text store (versionKey cfg c.agent_id c.version) c.content)
              (manifestKey cfg c.agent_id)))
            (s3_put_text store (versionKey cfg c.agent_id c.version) c.content) =
            (match manifestLoad jloads
              (s3_put_text store (versionKey cfg c.agent_id c.version) c.content)
              (manifestKey cfg c.agent_id) with
            | .error e => (.pDone (.error e),
                s3_put_text store (versionKey cfg c.agent_id c.version) c.content)
            | .ok m =>
              match manifestHasVersion m c.version with
              | .error e => (.pDone (.error e),
                  s3_put_text store (versionKey cfg c.agent_id c.version) c.content)
              | .ok true =>
                (.pDone (.error (.runtimeError
                  ("Prompt version already listed in manifest: " ++ c.version))),
                 s3_put_text store (versionKey cfg c.agent_id c.version) c.content)
              | .ok false =>
                (.pPutManifest (appendVersion m c.version c.note c.now),
                 s3_put_text store (versionKey cfg c.agent_id c.version) c.content))
            from rfl]
        have hml : manifestLoad jloads
            (s3_put_text store (versionKey cfg c.agent_id c.version) c.content)
            (manifestKey cfg c.agent_id) =
            manifestLoad jloads store (manifestKey cfg c.agent_id) := by
          unfold s3_put_text
          exact manifestLoad_sput_ne jloads store _ _ _
            (versionKey_ne_manifestKey cfg c.agent_id c.version)
        rw [hml]
        rcases h4 : manifestLoad jloads store (manifestKey cfg c.agent_id)
          with e | m <;> (try dsimp only)
        · simp [cvSteps, cvStep, Except.map]
        · rcases h5 : manifestHasVersion m c.version with e | b <;> (try dsimp only)
          · simp [cvSteps, cvStep, Except.map]
          · cases b <;> simp [cvSteps, cvStep, Except.map, s3_put_json]
      · simp [cvSteps, cvStep, prompts_create_version, h1, h2, s3_exists, h3,
          Except.map]
  · have h0 : cfg.use_s3 = false := Bool.eq_false_iff.mpr h1
    simp [cvSteps, cvStep, prompts_create_version, h0, Except.map]

/-! ## Claim theorems -/

/-- C2 (amended): the namespace guard is a plain string-prefix check.  Any
caller-supplied key starting with the namespace prefix is accepted and used
unchanged — including `"sessions/../secret"`, which in the flat key model
is simply a key under the prefix — and any key not starting with the
prefix is rejected with the guard's `ValueError` before any store access
(the result is the same for every store).  `"sessions/s1/x"` is accepted
and looked up verbatim. -/
theorem C2_namespace_guard_amended (jloads : String → Option Json)
    (cfg : HubConfig) (h1 : cfg.use_s3 = true) :
    (∀ store s3_key, strStartsWith s3_key (sessions_root cfg) = true →
      sessions_get_raw jloads cfg store s3_key = permissiveFetch jloads store s3_key) ∧
    (∀ store s3_key, strStartsWith s3_key (sessions_root cfg) = false →
      sessions_get_raw jloads cfg store s3_key =
        .error (.valueError "s3_key must be under sessions prefix")) ∧
    (∀ store s3_key, strStartsWith s3_key cfg.metrics_pfx = false →
      metrics_get jloads cfg store s3_key =
        .error (.valueError "s3_key must be under metrics prefix")) := by
  refine ⟨?_, ?_, ?_⟩
  · intro store s3_key h2
    simp [sessions_get_raw, permissiveFetch, h1, h2]
  · intro store s3_key h2
    simp [sessions_get_raw, h1, h2]
  · intro store s3_key h2
    simp [metrics_get, h1, h2]

/-- C2 counterexample: the claim says `sessions_get_raw` on the key
`"sessions/../secret"` with expected prefix `"sessions/"` is rejected, but
the guard is `startswith` and that key starts with `"sessions/"`, so the
operation proceeds to the store and returns the object. -/
theorem C2_namespace_guard_counterexample :
    strStartsWith "sessions/../secret" (sessions_root cfg0) = true ∧
    sessions_get_raw jloads0 cfg0 storeEsc "sessions/../secret" =
      .ok (.textRes "sessions/../secret" "top-secret") :=
  ⟨rfl, rfl⟩

/-- C2 witness: the amended guard behavior at the spec's own concrete keys —
`"sessions/s1/x"` accepted and used unchanged, a metrics-namespace key
rejected by `sessions_get_raw`'s sibling check before any store access. -/
theorem C2_namespace_guard_amended_witness :
    cfg0.use_s3 = true ∧
    strStartsWith "sessions/s1/x" (sessions_root cfg0) = true ∧
    sessions_get_raw jloads0 cfg0 storeRaw "sessions/s1/x" =
      permissiveFetch jloads0 storeRaw "sessions/s1/x" ∧
    strStartsWith "metrics/2024-01-01/run.json" (sessions_root cfg0) = false ∧
    sessions_get_raw jloads0 cfg0 storeRaw "metrics/2024-01-01/run.json" =
      .error (.valueError "s3_key must be under sessions prefix") ∧
    metrics_get jloads0 cfg0 storeRaw "sessions/s1/x" =
      .error (.valueError "s3_key must be under metrics prefix") :=
  ⟨rfl, rfl,
   (C2_namespace_guard_amended jloads0 cfg0 rfl).1 storeRaw "sessions/s1/x" rfl,
   rfl,
   (C2_namespace_guard_amended jloads0 cfg0 rfl).2.1 storeRaw
     "metrics/2024-01-01/run.json" rfl,
   (C2_namespace_guard_amended jloads0 cfg0 rfl).2.2 storeRaw "sessions/s1/x" rfl⟩

/-- C8: for a key under the sessions prefix, `sessions_get_raw` returns the
parsed structure when the payload parses as JSON and the literal raw text
otherwise — an `ok` result either way, never an error on payload format —
and errors only for a missing key (`NotFound`). -/
theorem C8_sessions_get_raw_permissive (jloads : String → Option Json)
    (cfg : HubConfig) (store : Store) (s3_key : String) (h1 : cfg.use_s3 = true)
    (h2 : strStartsWith s3_key (sessions_root cfg) = true) :
    (∀ t, s3_get_text store s3_key = .ok t →
      sessions_get_raw jloads cfg store s3_key =
        (match jloads t with
         | some j => .ok (.jsonRes s3_key j)
         | none => .ok (.textRes s3_key t))) ∧
    (sget store s3_key = none →
      sessions_get_raw jloads cfg store s3_key = .error (.notFound s3_key)) := by
  constructor
  · intro t ht
    simp [sessions_get_raw, h1, h2, ht]
  · intro hnone
    simp [sessions_get_raw, s3_get_text, h1, h2, hnone]

/-- C8 witness: a payload holding the JSON text for `{"a": 1}` comes back
parsed, `"not json"` comes back as raw text with no error, and a missing
key is `NotFound`. -/
theorem C8_sessions_get_raw_permissive_witness :
    sessions_get_raw jloads0 cfg0 storeRaw "sessions/s1/x" =
      .ok (.jsonRes "sessions/s1/x" (.obj [("a", .num 1)])) ∧
    sessions_get_raw jloads0 cfg0 storeRaw "sessions/s1/y" =
      .ok (.textRes "sessions/s1/y" "not json") ∧
    sessions_get_raw jloads0 cfg0 storeRaw "sessions/missing" =
      .error (.notFound "sessions/missing") :=
  ⟨(C8_sessions_get_raw_permissive jloads0 cfg0 storeRaw "sessions/s1/x" rfl rfl).1
     _ rfl,
   (C8_sessions_get_raw_permissive jloads0 cfg0 storeRaw "sessions/s1/y" rfl rfl).1
     _ rfl,
   (C8_sessions_get_raw_permissive jloads0 cfg0 storeRaw "sessions/missing" rfl
     rfl).2 rfl⟩

/-- C9 (amended): every operation this layer implements directly over the
store — status, prompt listing and creation, metrics, and all session
operations — fails fast with the configuration error when the backend is
disabled, before any store access (the result is the same for every store,
and the writer returns the store unchanged).  Operations that delegate
wholly to external collaborators (the registry tools and the current /
single-version prompt reads) perform no such check in this layer. -/
theorem C9_config_gate_amended (cfg : HubConfig) (h0 : cfg.use_s3 = false) :
    hub_status cfg = .error .configError ∧
    (∀ jloads store agent_id,
      prompts_list_versions jloads cfg store agent_id = .error .configError) ∧
    (∀ jloads now agent_id version content note store,
      prompts_create_version jloads cfg now agent_id version content note store =
        (.error .configError, store)) ∧
    (∀ store date_pfx agent_id limit tok,
      metrics_list cfg store date_pfx agent_id limit tok = .error .configError) ∧
    (∀ jloads store s3_key,
      metrics_get jloads cfg store s3_key = .error .configError) ∧
    (∀ store limit tok, sessions_list cfg store limit tok = .error .configError) ∧
    (∀ jloads store session_id,
      sessions_get_session_json jloads cfg store session_id = .error .configError) ∧
    (∀ store session_id limit tok,
      sessions_list_agents cfg store session_id limit tok = .error .configError) ∧
    (∀ jloads store session_id agent_id,
      sessions_get_agent_json jloads cfg store session_id agent_id =
        .error .configError) ∧
    (∀ store session_id agent_id limit tok,
      sessions_list_messages cfg store session_id agent_id limit tok =
        .error .configError) ∧
    (∀ jloads store session_id message_key agent_id,
      sessions_get_message_json jloads cfg store session_id message_key agent_id =
        .error .configError) ∧
    (∀ jloads store s3_key,
      sessions_get_raw jloads cfg store s3_key = .error .configError) := by
  refine ⟨?_, ?_, ?_, ?_, ?_, ?_, ?_, ?_, ?_, ?_, ?_, ?_⟩
  · simp [hub_status, h0]
  · intro jloads store agent_id; simp [prompts_list_versions, h0]
  · intro jloads now agent_id version content note store
    simp [prompts_create_version, h0]
  · intro store date_pfx agent_id limit tok; simp [metrics_list, h0]
  · intro jloads store s3_key; simp [metrics_get, h0]
  · intro store limit tok; simp [sessions_list, h0]
  · intro jloads store session_id; simp [sessions_get_session_json, h0]
  · intro store session_id limit tok; simp [sessions_list_agents, h0]
  · intro jloads store session_id agent_id; simp [sessions_get_agent_json, h0]
  · intro store session_id agent_id limit tok; simp [sessions_list_messages, h0]
  · intro jloads store session_id message_key agent_id
    simp [sessions_get_message_json, h0]
  · intro jloads store s3_key; simp [sessions_get_raw, h0]

/-- C9 witness: with the backend disabled, the directly-implemented
operations all fail with the configuration error at concrete inputs. -/
theorem C9_config_gate_amended_witness :
    cfgOff.use_s3 = false ∧
    hub_status cfgOff = .error .configError ∧
    sessions_list cfgOff store0 1 none = .error .configError ∧
    prompts_create_version jloads0 cfgOff 0 "a" "v" "c" none [] =
      (.error .configError, []) ∧
    metrics_get jloads0 cfgOff storeRaw "metrics/x" = .error .configError :=
  ⟨rfl,
   (C9_config_gate_amended cfgOff rfl).1,
   (C9_config_gate_amended cfgOff rfl).2.2.2.2.2.1 store0 1 none,
   (C9_config_gate_amended cfgOff rfl).2.2.1 jloads0 0 "a" "v" "c" none [],
   (C9_config_gate_amended cfgOff rfl).2.2.2.2.1 jloads0 storeRaw "metrics/x"⟩

/-- C9 counterexample: `registry_list_agents` is an exposed operation with
no configuration check at all — its body delegates straight to the
external registry collaborator without ever reading the configuration
(src 135-138 never calls `_cfg`), so with the backend disabled it still
completes via the collaborator instead of failing with a configuration
error. -/
theorem C9_config_gate_counterexample :
    cfgOff.use_s3 = false ∧
    registry_list_agents regStub none = .ok [] ∧
    registry_list_agents regStub none ≠ .error .configError :=
  ⟨rfl, rfl, fun h => Except.noConfusion h⟩

/-- C5: `prompts_create_version` rejects an empty label with the
`ValueError`; fails with the already-exists error when the version's key
is present in the store; and — as a distinct check observing the manifest
rather than the key — fails with the already-listed error when the key is
absent but the label appears in the manifest's version list. -/
theorem C5_create_version_error_cases (jloads : String → Option Json)
    (cfg : HubConfig) (now : Int) (agent_id content : String)
    (note : Option String) (store : Store) (h1 : cfg.use_s3 = true) :
    prompts_create_version jloads cfg now agent_id "" content note store =
      (.error (.valueError "version is required"), store) ∧
    (∀ version w, version ≠ "" →
      sget store (versionKey cfg agent_id version) = some w →
      prompts_create_version jloads cfg now agent_id version content note store =
        (.error (.runtimeError ("Prompt version already exists: " ++ version)),
         store)) ∧
    (∀ version m, version ≠ "" →
      sget store (versionKey cfg agent_id version) = none →
      manifestLoad jloads store (manifestKey cfg agent_id) = .ok m →
      manifestHasVersion m version = .ok true →
      (prompts_create_version jloads cfg now agent_id version content note store).1 =
        .error (.runtimeError ("Prompt version already listed in manifest: " ++
          version))) := by
  refine ⟨create_fail_empty now agent_id content note store h1, ?_, ?_⟩
  · intro version w h2 h3
    exact create_fail_exists h1 h2 h3
  · intro version m h2 h3 h4 h5
    rw [create_fail_dup h1 h2 h3 h4 h5]

/-- C5 witness: the three error cases at concrete inputs — empty label; a
pre-existing version object; and a manifest already listing the label
while its version object is absent. -/
theorem C5_create_version_error_cases_witness :
    prompts_create_version jloads0 cfg0 9 "a" "" "body" none storeDup =
      (.error (.valueError "version is required"), storeDup) ∧
    prompts_create_version jloads0 cfg0 9 "a" "v1" "body" none
        [("system_prompts/a/v1.txt", .vtext "old")] =
      (.error (.runtimeError "Prompt version already exists: v1"),
       [("system_prompts/a/v1.txt", .vtext "old")]) ∧
    (prompts_create_version jloads0 cfg0 9 "a" "v1" "body" none storeDup).1 =
      .error (.runtimeError "Prompt version already listed in manifest: v1") :=
  ⟨(C5_create_version_error_cases jloads0 cfg0 9 "a" "body" none storeDup rfl).1,
   (C5_create_version_error_cases jloads0 cfg0 9 "a" "body" none
     [("system_prompts/a/v1.txt", .vtext "old")] rfl).2.1 "v1" (.vtext "old")
     (by decide) rfl,
   (C5_create_version_error_cases jloads0 cfg0 9 "a" "body" none storeDup rfl).2.2
     "v1" (.obj [("versions", .arr [mkEntry "v1" none 0]), ("current", .null)])
     (by decide) rfl rfl rfl⟩

/-- C10: when the version's key is absent but the label is already in the
manifest, `prompts_create_version` first durably writes the version object
(src 217) and only then fails the manifest-duplicate check (src 229); the
new version object stays in the store (no rollback) while the manifest is
unchanged. -/
theorem C10_create_version_no_rollback {jloads : String → Option Json}
    {cfg : HubConfig} {now : Int} {agent_id version content : String}
    {note : Option String} {store : Store} {m : Json}
    (h1 : cfg.use_s3 = true) (h2 : version ≠ "")
    (h3 : sget store (versionKey cfg agent_id version) = none)
    (h4 : manifestLoad jloads store (manifestKey cfg agent_id) = .ok m)
    (h5 : manifestHasVersion m version = .ok true) :
    prompts_create_version jloads cfg now agent_id version content note store =
      (.error (.runtimeError ("Prompt version already listed in manifest: " ++
         version)),
       s3_put_text store (versionKey cfg agent_id version) content) ∧
    sget (prompts_create_version jloads cfg now agent_id version content note
      store).2 (versionKey cfg agent_id version) = some (.vtext content) ∧
    sget (prompts_create_version jloads cfg now agent_id version content note
      store).2 (manifestKey cfg agent_id) = sget store (manifestKey cfg agent_id) := by
  have hc := @create_fail_dup jloads cfg now agent_id version content note store m
    h1 h2 h3 h4 h5
  have hne := versionKey_ne_manifestKey cfg agent_id version
  refine ⟨hc, ?_, ?_⟩
  · rw [hc]
    unfold s3_put_text
    exact sget_sput_self _ _ _
  · rw [hc]
    unfold s3_put_text
    exact sget_sput_ne _ _ _ _ (Ne.symm hne)

/-- C10 witness: at a concrete store whose manifest lists `v1` with no
version object present, the call writes `v1.txt` and then fails; the
object remains, the manifest is untouched. -/
theorem C10_create_version_no_rollback_witness :
    prompts_create_version jloads0 cfg0 9 "a" "v1" "body" none storeDup =
      (.error (.runtimeError "Prompt version already listed in manifest: v1"),
       s3_put_text storeDup (versionKey cfg0 "a" "v1") "body") ∧
    sget (prompts_create_version jloads0 cfg0 9 "a" "v1" "body" none storeDup).2
      (versionKey cfg0 "a" "v1") = some (.vtext "body") ∧
    sget (prompts_create_version jloads0 cfg0 9 "a" "v1" "body" none storeDup).2
      (manifestKey cfg0 "a") = sget storeDup (manifestKey cfg0 "a") :=
  @C10_create_version_no_rollback jloads0 cfg0 9 "a" "v1" "body" none storeDup
    (.obj [("versions", .arr [mkEntry "v1" none 0]), ("current", .null)])
    rfl (by decide) rfl rfl rfl

/-- C3: `prompts_create_version` leaves the manifest's `current` untouched on
every path: a present `current` field keeps its value, and the
current-version pointer — where a missing field and an explicit `null`
both denote "no current version", the representation the server's own
default manifest uses — is exactly preserved. -/
theorem C3_create_version_current_untouched (jloads : String → Option Json)
    (cfg : HubConfig) (now : Int) (agent_id version content : String)
    (note : Option String) (store : Store) :
    (∀ v, currentFieldAt jloads store (manifestKey cfg agent_id) = some v →
      currentFieldAt jloads
        (prompts_create_version jloads cfg now agent_id version content note store).2
        (manifestKey cfg agent_id) = some v) ∧
    currentPtrAt jloads
      (prompts_create_version jloads cfg now agent_id version content note store).2
      (manifestKey cfg agent_id) =
      currentPtrAt jloads store (manifestKey cfg agent_id) :=
  create_preserves_current jloads cfg now agent_id version content note store

/-- C3 witness: with a manifest whose `current` is `"v0"`, creating version
`v1` leaves the stored `current` field and pointer at `"v0"`. -/
theorem C3_create_version_current_untouched_witness :
    currentFieldAt jloads0 storeCur (manifestKey cfg0 "a") = some (.str "v0") ∧
    currentFieldAt jloads0
      (prompts_create_version jloads0 cfg0 7 "a" "v1" "body" none storeCur).2
      (manifestKey cfg0 "a") = some (.str "v0") ∧
    currentPtrAt jloads0
      (prompts_create_version jloads0 cfg0 7 "a" "v1" "body" none storeCur).2
      (manifestKey cfg0 "a") = currentPtrAt jloads0 storeCur (manifestKey cfg0 "a") :=
  ⟨rfl,
   (C3_create_version_current_untouched jloads0 cfg0 7 "a" "v1" "body" none
     storeCur).1 (.str "v0") rfl,
   (C3_create_version_current_untouched jloads0 cfg0 7 "a" "v1" "body" none
     storeCur).2⟩

/-- C6: over a sessions root whose immediate children are `a/`, `b/`, `c/`
and page size 2, `sessions_list` returns the two bare child names (parent
prefix and trailing separator stripped) with `is_truncated` and a cursor;
resuming with that cursor returns the remaining child with
`is_truncated = false`.  In general, for every store and page size,
driving the pages to exhaustion and concatenating them reproduces exactly
the full one-level child listing — no duplicates, no omissions — the
store's cursor being forwarded unchanged through `_list_common_prefixes`. -/
theorem C6_listOneLevel_pagination :
    sessions_list cfg0 store0 2 none = .ok
      { session_ids := ["a", "b"]
        session_prefixes := ["sessions/a/", "sessions/b/"]
        next_continuation_token := some "xx"
        is_truncated := true } ∧
    sessions_list cfg0 store0 2 (some "xx") = .ok
      { session_ids := ["c"]
        session_prefixes := ["sessions/c/"]
        next_continuation_token := none
        is_truncated := false } ∧
    (∀ (cfg : HubConfig) (store : Store) (limit fuel : Nat), cfg.use_s3 = true →
      (s3AllEntries store (sessions_root cfg) true).length < fuel →
      sessionsCollect cfg store limit fuel none = sessionsAllIds cfg store) := by
  refine ⟨rfl, rfl, ?_⟩
  intro cfg store limit fuel h1 hlt
  rw [sessionsCollect_from h1 fuel 0 none rfl (by omega)]
  simp [sessionsAllIds]

/-- C6 witness: collecting all pages of the three-child store at page size 2
yields exactly the full child set `a`, `b`, `c`. -/
theorem C6_listOneLevel_pagination_witness :
    sessionsCollect cfg0 store0 2 4 none = sessionsAllIds cfg0 store0 ∧
    sessionsAllIds cfg0 store0 = ["a", "b", "c"] :=
  ⟨C6_listOneLevel_pagination.2.2 cfg0 store0 2 4 rfl (by decide), rfl⟩

/-- C4: for a label unused before (no version object at its key, label not
in the manifest), `prompts_create_version` succeeds, a read of the
version's key returns exactly `content`, `prompts_list_versions`
afterwards returns the appended manifest, which has an entry with the
label, and the current pointer is unchanged (still absent if it was
absent). -/
theorem C4_create_version_fresh_label {jloads : String → Option Json}
    {cfg : HubConfig} {now : Int} {agent_id version content : String}
    {note : Option String} {store : Store} {m : Json}
    (h1 : cfg.use_s3 = true) (h2 : version ≠ "")
    (h3 : sget store (versionKey cfg agent_id version) = none)
    (h4 : manifestLoad jloads store (manifestKey cfg agent_id) = .ok m)
    (h5 : manifestHasVersion m version = .ok false) :
    (prompts_create_version jloads cfg now agent_id version content note store).1 =
      .ok { version_key := versionKey cfg agent_id version,
            manifest_key := manifestKey cfg agent_id } ∧
    s3_get_text
      (prompts_create_version jloads cfg now agent_id version content note store).2
      (versionKey cfg agent_id version) = .ok content ∧
    prompts_list_versions jloads cfg
      (prompts_create_version jloads cfg now agent_id version content note store).2
      agent_id = .ok (appendVersion m version note now) ∧
    hasLabel (appendVersion m version note now) version = true ∧
    currentPtrAt jloads
      (prompts_create_version jloads cfg now agent_id version content note store).2
      (manifestKey cfg agent_id) =
      currentPtrAt jloads store (manifestKey cfg agent_id) := by
  have hc := @create_success jloads cfg now agent_id version content note store m
    h1 h2 h3 h4 h5
  have hne := versionKey_ne_manifestKey cfg agent_id version
  obtain ⟨f, hf, _, _⟩ := manifestLoad_spec h4
  refine ⟨?_, ?_, ?_, ?_, ?_⟩
  · rw [hc]
  · rw [hc]
    unfold s3_get_text s3_put_json s3_put_text
    rw [sget_sput_ne _ _ _ _ hne, sget_sput_self]
  · rw [hc]
    exact prompts_list_versions_vjson h1 (by unfold s3_put_json; exact sget_sput_self _ _ _)
  · rw [hf]
    exact hasLabel_appendVersion_self f version note now
  · exact (create_preserves_current jloads cfg now agent_id version content note
      store).2

/-- C4 witness: creating `v1` from an empty store — the version object then
holds the content, the listed manifest carries the `v1` entry, and the
current pointer is still absent. -/
theorem C4_create_version_fresh_label_witness :
    (prompts_create_version jloads0 cfg0 5 "agent" "v1" "hello" none []).1 =
      .ok { version_key := versionKey cfg0 "agent" "v1",
            manifest_key := manifestKey cfg0 "agent" } ∧
    s3_get_text (prompts_create_version jloads0 cfg0 5 "agent" "v1" "hello" none []).2
      (versionKey cfg0 "agent" "v1") = .ok "hello" ∧
    prompts_list_versions jloads0 cfg0
      (prompts_create_version jloads0 cfg0 5 "agent" "v1" "hello" none []).2
      "agent" = .ok (appendVersion defaultManifest "v1" none 5) ∧
    hasLabel (appendVersion defaultManifest "v1" none 5) "v1" = true ∧
    currentPtrAt jloads0
      (prompts_create_version jloads0 cfg0 5 "agent" "v1" "hello" none []).2
      (manifestKey cfg0 "agent") = currentPtrAt jloads0 [] (manifestKey cfg0 "agent") :=
  @C4_create_version_fresh_label jloads0 cfg0 5 "agent" "v1" "hello" none []
    defaultManifest rfl (by decide) rfl rfl rfl

/-- C7: `prompts_create_version` tolerates a missing manifest (it starts
from the default empty one) and a malformed manifest (a missing `versions`
list and a missing `current` field are defaulted to the empty list and
`null`); `prompts_list_versions` returns the stored manifest verbatim, or
the default manifest when none exists. -/
theorem C7_manifest_defaults (jloads : String → Option Json) (cfg : HubConfig)
    (now : Int) (agent_id version : String) (content : String)
    (note : Option String) (h1 : cfg.use_s3 = true) (h2 : version ≠ "") :
    (∀ store, sget store (manifestKey cfg agent_id) = none →
      sget store (versionKey cfg agent_id version) = none →
      (prompts_create_version jloads cfg now agent_id version content note store).1 =
        .ok { version_key := versionKey cfg agent_id version,
              manifest_key := manifestKey cfg agent_id } ∧
      prompts_list_versions jloads cfg
        (prompts_create_version jloads cfg now agent_id version content note store).2
        agent_id =
        .ok (.obj [("versions", .arr [mkEntry version note now]), ("current", .null)])) ∧
    (∀ store f, sget store (manifestKey cfg agent_id) = some (.vjson (.obj f)) →
      jlookup f "versions" = none → jlookup f "current" = none →
      sget store (versionKey cfg agent_id version) = none →
      manifestLoad jloads store (manifestKey cfg agent_id) =
        .ok (.obj (jsetFields (jsetFields f "versions" (.arr [])) "current" .null)) ∧
      (prompts_create_version jloads cfg now agent_id version content note store).1 =
        .ok { version_key := versionKey cfg agent_id version,
              manifest_key := manifestKey cfg agent_id } ∧
      manifestVersionsList
        (appendVersion (.obj (jsetFields (jsetFields f "versions" (.arr []))
          "current" .null)) version note now) = [mkEntry version note now]) ∧
    (∀ store, (sget store (manifestKey cfg agent_id) = none →
        prompts_list_versions jloads cfg store agent_id = .ok defaultManifest) ∧
      (∀ j, sget store (manifestKey cfg agent_id) = some (.vjson j) →
        prompts_list_versions jloads cfg store agent_id = .ok j)) := by
  refine ⟨?_, ?_, ?_⟩
  · intro store hm hv
    have h4 : manifestLoad jloads store (manifestKey cfg agent_id) =
        .ok defaultManifest := manifestLoad_default hm
    have h5 : manifestHasVersion defaultManifest version = .ok false := rfl
    have hc := @create_success jloads cfg now agent_id version content note store
      defaultManifest h1 h2 hv h4 h5
    constructor
    · rw [hc]
    · rw [hc]
      have hl := @prompts_list_versions_vjson jloads cfg
        (s3_put_json (s3_put_text store (versionKey cfg agent_id version) content)
          (manifestKey cfg agent_id) (appendVersion defaultManifest version note now))
        agent_id (appendVersion defaultManifest version note now) h1
        (by unfold s3_put_json; exact sget_sput_self _ _ _)
      exact hl
  · intro store f hm hvers hcur hv
    have hload : manifestLoad jloads store (manifestKey cfg agent_id) =
        .ok (.obj (jsetFields (jsetFields f "versions" (.arr [])) "current" .null)) := by
      rw [manifestLoad_vjson hm]
      show Except.ok (Json.obj (normCurrent (normVersions f))) =
        Except.ok (Json.obj (jsetFields (jsetFields f "versions" (Json.arr []))
          "current" Json.null))
      unfold normVersions
      rw [hvers]
      dsimp only
      unfold normCurrent
      rw [jlookup_jsetFields_ne _ _ _ _ (by decide), hcur]
    have hmvl : manifestVersionsList
        (.obj (jsetFields (jsetFields f "versions" (.arr [])) "current" .null)) = [] := by
      unfold manifestVersionsList
      show (match jlookup (jsetFields (jsetFields f "versions" (.arr []))
        "current" .null) "versions" with
        | some (.arr l) => l | _ => ([] : List Json)) = []
      rw [jlookup_jsetFields_ne _ _ _ _ (by decide), jlookup_jsetFields_self]
    have h5 : manifestHasVersion
        (.obj (jsetFields (jsetFields f "versions" (.arr [])) "current" .null))
        version = .ok false := by
      unfold manifestHasVersion
      rw [hmvl]
      rfl
    have hc := @create_success jloads cfg now agent_id version content note store
      (.obj (jsetFields (jsetFields f "versions" (.arr [])) "current" .null))
      h1 h2 hv hload h5
    refine ⟨hload, by rw [hc], ?_⟩
    rw [appendVersion_versionsList, hmvl]
    rfl
  · intro store
    exact ⟨fun hm => prompts_list_versions_absent h1 hm,
      fun j hm => prompts_list_versions_vjson h1 hm⟩

/-- C7 witness: creation from a store with no manifest yields the
single-entry manifest; a manifest lacking both fields is normalized as the
claim describes; `prompts_list_versions` returns the default manifest when
none is stored and the stored one verbatim otherwise. -/
theorem C7_manifest_defaults_witness :
    (prompts_create_version jloads0 cfg0 3 "a" "v1" "body" none []).1 =
      .ok { version_key := versionKey cfg0 "a" "v1",
            manifest_key := manifestKey cfg0 "a" } ∧
    manifestLoad jloads0 storeMal (manifestKey cfg0 "a") =
      .ok (.obj [("extra", .str "e"), ("versions", .arr []), ("current", .null)]) ∧
    prompts_list_versions jloads0 cfg0 [] "a" = .ok defaultManifest ∧
    prompts_list_versions jloads0 cfg0 storeMal "a" =
      .ok (.obj [("extra", .str "e")]) :=
  ⟨((C7_manifest_defaults jloads0 cfg0 3 "a" "v1" "body" none rfl (by decide)).1
     [] rfl rfl).1,
   ((C7_manifest_defaults jloads0 cfg0 3 "a" "v1" "body" none rfl (by decide)).2.1
     storeMal [("extra", .str "e")] rfl rfl rfl rfl).1,
   ((C7_manifest_defaults jloads0 cfg0 3 "a" "v1" "body" none rfl (by decide)).2.2
     []).1 rfl,
   ((C7_manifest_defaults jloads0 cfg0 3 "a" "v1" "body" none rfl (by decide)).2.2
     storeMal).2 (.obj [("extra", .str "e")]) rfl⟩

/-- C1 counterexample: the claim's concurrent guarantees fail on this code,
whose version write is a separate existence-check-then-put and whose
manifest write is an unconditional put (src 214-217, 234), not a
conditional replace keyed on a version tag.  Interleaving two callers'
atomic store operations: (i) with the same label `v` under `schedRace`,
both callers finish with `ok` — not exactly one success and no
`AlreadyExists`; (ii) with distinct labels `v1`, `v2` under
`schedOverlap`, both callers finish with `ok` yet the final manifest
holds only `v2`'s entry — `v1`'s entry is lost. -/
theorem C1_create_version_concurrent_counterexample :
    (cvRun2 jloads0 cfg0 cvC cvD schedRace (.pStart, .pStart, [])).1 =
      .pDone (.ok ()) ∧
    (cvRun2 jloads0 cfg0 cvC cvD schedRace (.pStart, .pStart, [])).2.1 =
      .pDone (.ok ()) ∧
    (cvRun2 jloads0 cfg0 cvA cvB schedOverlap (.pStart, .pStart, [])).1 =
      .pDone (.ok ()) ∧
    (cvRun2 jloads0 cfg0 cvA cvB schedOverlap (.pStart, .pStart, [])).2.1 =
      .pDone (.ok ()) ∧
    sget (cvRun2 jloads0 cfg0 cvA cvB schedOverlap (.pStart, .pStart, [])).2.2
      (manifestKey cfg0 "a") =
      some (.vjson (.obj [("versions", .arr [mkEntry "v2" none 2]),
        ("current", .null)])) :=
  ⟨rfl, rfl, rfl, rfl, rfl⟩

/-- C1 (amended): without interference between a call's store operations
the guarantees hold.  Creating a fresh label succeeds; calling again with
the same label fails with the already-exists error and changes nothing,
and the manifest holds exactly one entry for that label; calling instead
with a distinct fresh label succeeds too, after which each of the two
labels has exactly one manifest entry (no lost entries).  Under
concurrent interleavings the code offers no such guarantee: the
existence check and the version put are separate store operations and the
manifest write is an unconditional put rather than a conditional replace
keyed on the version tag observed at read time. -/
theorem C1_create_version_sequential {jloads : String → Option Json}
    {cfg : HubConfig} {now now2 : Int} {agent_id version content content2 : String}
    {note note2 : Option String} {store : Store} {m : Json}
    (h1 : cfg.use_s3 = true) (h2 : version ≠ "")
    (h3 : sget store (versionKey cfg agent_id version) = none)
    (h4 : manifestLoad jloads store (manifestKey cfg agent_id) = .ok m)
    (h5 : manifestHasVersion m version = .ok false) :
    (prompts_create_version jloads cfg now agent_id version content note store).1 =
      .ok { version_key := versionKey cfg agent_id version,
            manifest_key := manifestKey cfg agent_id } ∧
    prompts_create_version jloads cfg now2 agent_id version content2 note2
      (prompts_create_version jloads cfg now agent_id version content note store).2 =
      (.error (.runtimeError ("Prompt version already exists: " ++ version)),
       (prompts_create_version jloads cfg now agent_id version content note store).2) ∧
    labelCount (appendVersion m version note now) version = 1 ∧
    prompts_list_versions jloads cfg
      (prompts_create_version jloads cfg now agent_id version content note store).2
      agent_id = .ok (appendVersion m version note now) ∧
    (∀ version2 content3 note3 now3, version2 ≠ "" → version2 ≠ version →
      sget store (versionKey cfg agent_id version2) = none →
      manifestHasVersion m version2 = .ok false →
      (prompts_create_version jloads cfg now3 agent_id version2 content3 note3
        (prompts_create_version jloads cfg now agent_id version content note
          store).2).1 =
        .ok { version_key := versionKey cfg agent_id version2,
              manifest_key := manifestKey cfg agent_id } ∧
      labelCount (appendVersion (appendVersion m version note now) version2 note3
        now3) version = 1 ∧
      labelCount (appendVersion (appendVersion m version note now) version2 note3
        now3) version2 = 1) := by
  have hc := @create_success jloads cfg now agent_id version content note store m
    h1 h2 h3 h4 h5
  have hne := versionKey_ne_manifestKey cfg agent_id version
  obtain ⟨f, hf, _, _⟩ := manifestLoad_spec h4
  have hcount0 : labelCount m version = 0 := labelCount_eq_zero h5
  refine ⟨by rw [hc], ?_, ?_, ?_, ?_⟩
  · rw [hc]
    dsimp only
    have h3' : sget (s3_put_json
        (s3_put_text store (versionKey cfg agent_id version) content)
        (manifestKey cfg agent_id) (appendVersion m version note now))
        (versionKey cfg agent_id version) = some (.vtext content) := by
      unfold s3_put_json s3_put_text
      rw [sget_sput_ne _ _ _ _ hne, sget_sput_self]
    exact create_fail_exists h1 h2 h3'
  · rw [hf, labelCount_appendVersion, ← hf, hcount0]
    simp
  · rw [hc]
    exact prompts_list_versions_vjson h1
      (by unfold s3_put_json; exact sget_sput_self _ _ _)
  · intro version2 content3 note3 now3 h2b hne2 h3b h5b
    have hne_b := versionKey_ne_manifestKey cfg agent_id version2
    have hvkne : versionKey cfg agent_id version2 ≠ versionKey cfg agent_id version :=
      fun h => hne2 (versionKey_inj h)
    have h3b' : sget
        (prompts_create_version jloads cfg now agent_id version content note store).2
        (versionKey cfg agent_id version2) = none := by
      rw [hc]
      dsimp only
      unfold s3_put_json s3_put_text
      rw [sget_sput_ne _ _ _ _ hne_b, sget_sput_ne _ _ _ _ hvkne]
      exact h3b
    have h4b : manifestLoad jloads
        (prompts_create_version jloads cfg now agent_id version content note store).2
        (manifestKey cfg agent_id) = .ok (appendVersion m version note now) := by
      rw [hc]
      dsimp only
      apply manifestLoad_put_append
      unfold s3_put_text
      rw [manifestLoad_sput_ne jloads store _ _ _ hne]
      exact h4
    have h5b' : manifestHasVersion (appendVersion m version note now) version2 =
        .ok false := by
      unfold manifestHasVersion
      rw [hf, appendVersion_versionsList]
      have hone : hasVersionEntry [mkEntry version note now] version2 = .ok false := by
        rw [hasVersionEntry_single]
        rw [beq_eq_false_iff_ne.mpr fun h => hne2 h.symm]
      have hbase : hasVersionEntry (manifestVersionsList (.obj f)) version2 =
          .ok false := by
        have := h5b
        unfold manifestHasVersion at this
        rw [hf] at this
        exact this
      exact hasVersionEntry_append_false hbase hone
    have hc2 := @create_success jloads cfg now3 agent_id version2 content3 note3
      (prompts_create_version jloads cfg now agent_id version content note store).2
      (appendVersion m version note now) h1 h2b h3b' h4b h5b'
    have hm2obj : appendVersion m version note now =
        .obj (jsetFields f "versions"
          (.arr (manifestVersionsList (.obj f) ++ [mkEntry version note now]))) := by
      rw [hf]
      exact appendVersion_obj f version note now
    refine ⟨by rw [hc2], ?_, ?_⟩
    · rw [hm2obj, labelCount_appendVersion,
        beq_eq_false_iff_ne.mpr fun h => hne2 h]
      rw [← hm2obj]
      rw [hf, labelCount_appendVersion, ← hf, hcount0]
      simp
    · rw [hm2obj, labelCount_appendVersion, ← hm2obj]
      rw [hf, labelCount_appendVersion, ← hf]
      rw [labelCount_eq_zero h5b]
      have hz : (version == version2) = false :=
        beq_eq_false_iff_ne.mpr fun h => hne2 h.symm
      rw [hz]
      simp

/-- C1 witness: the sequential guarantees at concrete inputs — create `v1`
from an empty store, the same-label retry fails with the already-exists
error, and a subsequent distinct-label creation of `v2` yields exactly
one manifest entry for each label. -/
theorem C1_create_version_sequential_witness :
    (prompts_create_version jloads0 cfg0 1 "a" "v1" "c1" none []).1 =
      .ok { version_key := versionKey cfg0 "a" "v1",
            manifest_key := manifestKey cfg0 "a" } ∧
    prompts_create_version jloads0 cfg0 2 "a" "v1" "c2" none
      (prompts_create_version jloads0 cfg0 1 "a" "v1" "c1" none []).2 =
      (.error (.runtimeError "Prompt version already exists: v1"),
       (prompts_create_version jloads0 cfg0 1 "a" "v1" "c1" none []).2) ∧
    labelCount (appendVersion defaultManifest "v1" none 1) "v1" = 1 ∧
    (prompts_create_version jloads0 cfg0 2 "a" "v2" "c2" none
      (prompts_create_version jloads0 cfg0 1 "a" "v1" "c1" none []).2).1 =
      .ok { version_key := versionKey cfg0 "a" "v2",
            manifest_key := manifestKey cfg0 "a" } ∧
    labelCount (appendVersion (appendVersion defaultManifest "v1" none 1) "v2"
      none 2) "v1" = 1 ∧
    labelCount (appendVersion (appendVersion defaultManifest "v1" none 1) "v2"
      none 2) "v2" = 1 :=
  ⟨(@C1_create_version_sequential jloads0 cfg0 1 2 "a" "v1" "c1" "c2" none none []
      defaultManifest rfl (by decide) rfl rfl rfl).1,
   (@C1_create_version_sequential jloads0 cfg0 1 2 "a" "v1" "c1" "c2" none none []
      defaultManifest rfl (by decide) rfl rfl rfl).2.1,
   (@C1_create_version_sequential jloads0 cfg0 1 2 "a" "v1" "c1" "c2" none none []
      defaultManifest rfl (by decide) rfl rfl rfl).2.2.1,
   ((@C1_create_version_sequential jloads0 cfg0 1 2 "a" "v1" "c1" "c2" none none []
      defaultManifest rfl (by decide) rfl rfl rfl).2.2.2.2 "v2" "c2" none 2
      (by decide) (by decide) rfl rfl).1,
   ((@C1_create_version_sequential jloads0 cfg0 1 2 "a" "v1" "c1" "c2" none none []
      defaultManifest rfl (by decide) rfl rfl rfl).2.2.2.2 "v2" "c2" none 2
      (by decide) (by decide) rfl rfl).2.1,
   ((@C1_create_version_sequential jloads0 cfg0 1 2 "a" "v1" "c1" "c2" none none []
      defaultManifest rfl (by decide) rfl rfl rfl).2.2.2.2 "v2" "c2" none 2
      (by decide) (by decide) rfl rfl).2.2⟩

end StrandsHubMcp
